import Mathlib

/-
Verification development for the OptimaDB typed query/schema engine
(src/src/table.ts, src/src/schema.ts, src/src/database.ts).

The development shallowly embeds the runtime pieces the claims are about:
JavaScript values, the field/schema model, the inbound/outbound value
formatters, the condition compiler (buildWhereClause), the CRUD methods of
the table runtime, and the schema-migration engine.  Machine-level details
that none of the claims depend on (exact IEEE-754 double behaviour, JS
locale date strings, the full set of date formats accepted by `new Date`)
are modelled up to the documented subset and noted where they occur.
-/

namespace Optima

/-- Value is the model of a JavaScript runtime value as used by the data
layer: `null`, `undefined`, booleans, numbers (with NaN separate), strings,
arrays, plain objects (ordered key/value lists), and Date objects (valid
dates as epoch milliseconds, plus the Invalid Date object). -/
inductive Value where
  | vNull
  | vUndef
  | vBool (b : Bool)
  | vNum (q : Rat)
  | vNaN
  | vStr (s : String)
  | vArr (elems : List Value)
  | vObj (fields : List (String × Value))
  | vDate (ms : Int)
  | vInvalidDate

open Value

/-- joinSep models JavaScript `Array.prototype.join(sep)`. -/
def joinSep (sep : String) : List String → String
  | [] => ""
  | [s] => s
  | s :: rest => s ++ sep ++ joinSep sep rest

/-- padZeros left-pads a decimal digit string to the given width. -/
def padZeros (width : Nat) (s : String) : String :=
  if s.length ≥ width then s
  else String.mk (List.replicate (width - s.length) '0') ++ s

/-- decExpOf finds the least k ≤ 30 such that q·10^k is an integer
(every value arising from parsing a finite decimal literal has one). -/
def decExpOf (q : Rat) : Option Nat :=
  (List.range 31).find? (fun k => (q * (10 : Rat) ^ k).den = 1)

/-- numToString models JavaScript number-to-string conversion for the
integral and finite-decimal values the claims exercise.  (Exact IEEE-754
shortest-round-trip printing is out of the model's scope; every number the
claims touch is an integer or a short finite decimal, where JS prints the
plain decimal expansion rendered here.) -/
def numToString (q : Rat) : String :=
  if q.den = 1 then toString q.num
  else
    match decExpOf q with
    | some k =>
        let n := (q * (10 : Rat) ^ k).num
        let sign := if n < 0 then "-" else ""
        let digits := padZeros (k + 1) (toString n.natAbs)
        let ipart := digits.take (digits.length - k)
        let fpart := digits.drop (digits.length - k)
        sign ++ ipart ++ "." ++ fpart
    | none => toString q.num ++ "/" ++ toString q.den

/-- civilFromDays converts a day count since 1970-01-01 to a proleptic
Gregorian (year, month, day), following the standard era-based algorithm
that JS engines implement for Date decomposition. -/
def civilFromDays (z0 : Int) : Int × Nat × Nat :=
  let z := z0 + 719468
  let era := (if 0 ≤ z then z else z - 146096) / 146097
  let doe := z - era * 146097
  let yoe := (doe - doe / 1460 + doe / 36524 - doe / 146096) / 365
  let y := yoe + era * 400
  let doy := doe - (365 * yoe + yoe / 4 - yoe / 100)
  let mp := (5 * doy + 2) / 153
  let d := doy - (153 * mp + 2) / 5 + 1
  let m := mp + (if mp < 10 then 3 else -9)
  (y + (if m ≤ 2 then 1 else 0), m.toNat, d.toNat)

/-- daysFromCivil is the inverse of civilFromDays. -/
def daysFromCivil (y : Int) (m d : Nat) : Int :=
  let y' := y - (if m ≤ 2 then 1 else 0)
  let era := (if 0 ≤ y' then y' else y' - 399) / 400
  let yoe := y' - era * 400
  let mp : Nat := (m + 9) % 12
  let doy : Int := (153 * (mp : Int) + 2) / 5 + (d : Int) - 1
  let doe := yoe * 365 + yoe / 4 - yoe / 100 + doy
  era * 146097 + doe - 719468

/-- isoString models `Date.prototype.toISOString` on a valid date given as
epoch milliseconds: "YYYY-MM-DDTHH:MM:SS.sssZ" (with the ECMA expanded
±YYYYYY year form outside 0..9999). -/
def isoString (ms : Int) : String :=
  let days := Int.fdiv ms 86400000
  let msday := (ms - days * 86400000).toNat
  let (y, m, d) := civilFromDays days
  let hh := msday / 3600000
  let mi := msday % 3600000 / 60000
  let ss := msday % 60000 / 1000
  let mmm := msday % 1000
  let ypart :=
    if 0 ≤ y ∧ y ≤ 9999 then padZeros 4 (toString y.natAbs)
    else (if y < 0 then "-" else "+") ++ padZeros 6 (toString y.natAbs)
  ypart ++ "-" ++ padZeros 2 (toString m) ++ "-" ++ padZeros 2 (toString d) ++
    "T" ++ padZeros 2 (toString hh) ++ ":" ++ padZeros 2 (toString mi) ++ ":" ++
    padZeros 2 (toString ss) ++ "." ++ padZeros 3 (toString mmm) ++ "Z"

/-- digitVal reads one decimal digit. -/
def digitVal (c : Char) : Option Nat :=
  if '0' ≤ c ∧ c ≤ '9' then some (c.toNat - '0'.toNat) else none

/-- readDigits consumes a fixed number of decimal digits. -/
def readDigits : Nat → List Char → Option (Nat × List Char)
  | 0, cs => some (0, cs)
  | n + 1, c :: cs => do
      let d ← digitVal c
      let (rest, cs') ← readDigits n cs
      pure (d * 10 ^ n + rest, cs')
  | _ + 1, [] => none

/-- expectChar consumes one expected character. -/
def expectChar (c : Char) : List Char → Option (List Char)
  | c' :: cs => if c' = c then some cs else none
  | [] => none

/-- readDigitsThen consumes n digits followed by an expected separator. -/
def readDigitsThen (n : Nat) (sep : Char) (cs : List Char) : Option (Nat × List Char) :=
  match readDigits n cs with
  | none => none
  | some (v, cs1) =>
      match expectChar sep cs1 with
      | none => none
      | some cs2 => some (v, cs2)

/-- parseISOdate reads "YYYY-MM-DD T" returning (y, m, d, rest). -/
def parseISOdate (cs : List Char) : Option (Nat × Nat × Nat × List Char) :=
  match readDigitsThen 4 '-' cs with
  | none => none
  | some (y, cs1) =>
      match readDigitsThen 2 '-' cs1 with
      | none => none
      | some (m, cs2) =>
          match readDigitsThen 2 'T' cs2 with
          | none => none
          | some (d, cs3) => some (y, m, d, cs3)

/-- parseISOtime reads "HH:MM:SS.sssZ" (with nothing after), returning the
millisecond count of the day. -/
def parseISOtime (cs : List Char) : Option Nat :=
  match readDigitsThen 2 ':' cs with
  | none => none
  | some (hh, cs1) =>
      match readDigitsThen 2 ':' cs1 with
      | none => none
      | some (mi, cs2) =>
          match readDigitsThen 2 '.' cs2 with
          | none => none
          | some (ss, cs3) =>
              match readDigitsThen 3 'Z' cs3 with
              | none => none
              | some (mmm, cs4) =>
                  if cs4.isEmpty ∧ hh ≤ 23 ∧ mi ≤ 59 ∧ ss ≤ 59 then
                    some (hh * 3600000 + mi * 60000 + ss * 1000 + mmm)
                  else none

/-- parseISO parses the ISO-8601 string form emitted by isoString (which is
also the format `new Date(string)` is guaranteed to accept); other date
string formats JS happens to accept are outside the model and yield none. -/
def parseISO (s : String) : Option Int :=
  match parseISOdate s.data with
  | none => none
  | some (y, m, d, rest) =>
      match parseISOtime rest with
      | none => none
      | some msday =>
          if 1 ≤ m ∧ m ≤ 12 ∧ 1 ≤ d ∧ d ≤ 31 then
            some (daysFromCivil (y : Int) m d * 86400000 + (msday : Int))
          else none

/-- hexChar renders a nibble as a lowercase hex digit. -/
def hexChar (n : Nat) : Char :=
  if n < 10 then Char.ofNat ('0'.toNat + n) else Char.ofNat ('a'.toNat + (n - 10))

/-- jsonEscapeChar escapes one character as JSON.stringify does. -/
def jsonEscapeChar (c : Char) : String :=
  if c = '"' then "\\\""
  else if c = '\\' then "\\\\"
  else if c = '\n' then "\\n"
  else if c = '\t' then "\\t"
  else if c = '\r' then "\\r"
  else if c = '\x08' then "\\b"
  else if c = '\x0c' then "\\f"
  else if c.toNat < 32 then
    "\\u00" ++ String.singleton (hexChar (c.toNat / 16)) ++ String.singleton (hexChar (c.toNat % 16))
  else String.singleton c

/-- jsonQuote renders a JSON string literal. -/
def jsonQuote (s : String) : String :=
  "\"" ++ String.join (s.data.map jsonEscapeChar) ++ "\""

/-- isUndef tests for the undefined value. -/
def Value.isUndef : Value → Bool
  | .vUndef => true
  | _ => false

mutual
/-- jsonStringify models `JSON.stringify` on the modelled values: default
formatting (no spaces), `undefined` → "null" inside arrays and omitted from
objects, Date objects serialized via toJSON (their ISO string; null for
Invalid Date), NaN → "null". -/
def jsonStringify : Value → String
  | .vNull => "null"
  | .vNaN => "null"
  | .vUndef => "undefined"
  | .vBool b => if b then "true" else "false"
  | .vNum q => numToString q
  | .vStr s => jsonQuote s
  | .vDate ms => jsonQuote (isoString ms)
  | .vInvalidDate => "null"
  | .vArr xs => "[" ++ joinSep "," (jsonStringifyArrItems xs) ++ "]"
  | .vObj fs => "\x7b" ++ joinSep "," (jsonStringifyObjItems fs) ++ "\x7d"

/-- jsonStringifyArrItems renders array elements (undefined → "null"). -/
def jsonStringifyArrItems : List Value → List String
  | [] => []
  | v :: rest =>
      (if v.isUndef then "null" else jsonStringify v) :: jsonStringifyArrItems rest

/-- jsonStringifyObjItems renders object members, skipping undefined
values as JSON.stringify does. -/
def jsonStringifyObjItems : List (String × Value) → List String
  | [] => []
  | (k, v) :: rest =>
      if v.isUndef then jsonStringifyObjItems rest
      else (jsonQuote k ++ ":" ++ jsonStringify v) :: jsonStringifyObjItems rest
end

/-- isWsChar recognizes the common JSON/JS whitespace characters. -/
def isWsChar (c : Char) : Bool :=
  c = ' ' ∨ c = '\t' ∨ c = '\n' ∨ c = '\r'

/-- skipWs drops leading JSON whitespace. -/
def skipWs : List Char → List Char
  | [] => []
  | c :: cs => if isWsChar c then skipWs cs else c :: cs

/-- isDigitCh recognizes a decimal digit. -/
def isDigitCh (c : Char) : Bool :=
  '0' ≤ c ∧ c ≤ '9'

/-- spanDigits splits off a leading run of decimal digits. -/
def spanDigits (cs : List Char) : List Char × List Char :=
  (cs.takeWhile isDigitCh, cs.dropWhile isDigitCh)

/-- digitsToNat reads a digit run as a natural number. -/
def digitsToNat (ds : List Char) : Nat :=
  ds.foldl (fun a c => a * 10 + (c.toNat - '0'.toNat)) 0

/-- hexVal reads one hexadecimal digit. -/
def hexVal (c : Char) : Option Nat :=
  if '0' ≤ c ∧ c ≤ '9' then some (c.toNat - '0'.toNat)
  else if 'a' ≤ c ∧ c ≤ 'f' then some (c.toNat - 'a'.toNat + 10)
  else if 'A' ≤ c ∧ c ≤ 'F' then some (c.toNat - 'A'.toNat + 10)
  else none

/-- parseJsonStrChars reads the body of a JSON string literal (the opening
quote already consumed), decoding the escape sequences JSON.parse accepts. -/
def parseJsonStrChars (fuel : Nat) (cs : List Char) : Option (List Char × List Char) :=
  match fuel with
  | 0 => none
  | f + 1 =>
    match cs with
    | [] => none
    | c :: rest =>
      if c = '"' then some ([], rest)
      else if c = '\\' then
        match rest with
        | [] => none
        | e :: rest2 =>
          let esc : Option (Char × List Char) :=
            if e = '"' then some ('"', rest2)
            else if e = '\\' then some ('\\', rest2)
            else if e = '/' then some ('/', rest2)
            else if e = 'n' then some ('\n', rest2)
            else if e = 't' then some ('\t', rest2)
            else if e = 'r' then some ('\r', rest2)
            else if e = 'b' then some ('\x08', rest2)
            else if e = 'f' then some ('\x0c', rest2)
            else if e = 'u' then
              match rest2 with
              | h1 :: h2 :: h3 :: h4 :: rest3 =>
                match hexVal h1, hexVal h2, hexVal h3, hexVal h4 with
                | some a, some b, some c2, some d =>
                    some (Char.ofNat (a * 4096 + b * 256 + c2 * 16 + d), rest3)
                | _, _, _, _ => none
              | _ => none
            else none
          match esc with
          | none => none
          | some (ch, rest') =>
            match parseJsonStrChars f rest' with
            | some (s, r) => some (ch :: s, r)
            | none => none
      else
        match parseJsonStrChars f rest with
        | some (s, r) => some (c :: s, r)
        | none => none

/-- parseFrac reads an optional fractional part ".ddd", returning the
fraction digits' value and count. -/
def parseFrac (cs : List Char) : Option (Nat × Nat × List Char) :=
  match cs with
  | '.' :: r =>
      let (fds, r2) := spanDigits r
      if fds.isEmpty then none
      else some (digitsToNat fds, fds.length, r2)
  | _ => some (0, 0, cs)

/-- ratOfParts assembles (sign, integer digits, fraction value, fraction
length, exponent) into the denoted rational, using only Nat/Int
arithmetic and mkRat. -/
def ratOfParts (neg : Bool) (ipart fval flen : Nat) (ex : Int) : Rat :=
  let numAbs : Nat := (ipart * 10 ^ flen + fval) * (if 0 ≤ ex then 10 ^ ex.toNat else 1)
  let den : Nat := 10 ^ flen * (if 0 ≤ ex then 1 else 10 ^ (-ex).toNat)
  mkRat (if neg then -(numAbs : Int) else (numAbs : Int)) den

/-- parseExp reads an optional exponent part "e±ddd". -/
def parseExp (cs : List Char) : Option (Int × List Char) :=
  match cs with
  | c :: r =>
      if c = 'e' ∨ c = 'E' then
        let (sgn, r1) : Int × List Char :=
          match r with
          | '+' :: r2 => (1, r2)
          | '-' :: r2 => (-1, r2)
          | _ => (1, r)
        let (eds, r2) := spanDigits r1
        if eds.isEmpty then none else some (sgn * (digitsToNat eds : Int), r2)
      else some (0, cs)
  | [] => some (0, [])

/-- parseJsonNumber reads a JSON number literal. -/
def parseJsonNumber (cs : List Char) : Option (Rat × List Char) :=
  let (neg, cs1) : Bool × List Char :=
    match cs with
    | '-' :: r => (true, r)
    | _ => (false, cs)
  let (ids, cs2) := spanDigits cs1
  if ids.isEmpty then none
  else
    match parseFrac cs2 with
    | none => none
    | some (fval, flen, cs3) =>
      match parseExp cs3 with
      | none => none
      | some (ex, cs4) =>
          some (ratOfParts neg (digitsToNat ids) fval flen ex, cs4)

mutual

/-- parseJsonVal is a fuel-indexed recursive-descent parser modelling
`JSON.parse` on the grammar JSON.stringify emits (value position). -/
def parseJsonVal (fuel : Nat) (cs0 : List Char) : Option (Value × List Char) :=
  match fuel with
  | 0 => none
  | f + 1 =>
    match skipWs cs0 with
    | [] => none
    | c :: rest =>
      if c = 'n' then
        match rest with
        | 'u' :: 'l' :: 'l' :: r => some (.vNull, r)
        | _ => none
      else if c = 't' then
        match rest with
        | 'r' :: 'u' :: 'e' :: r => some (.vBool true, r)
        | _ => none
      else if c = 'f' then
        match rest with
        | 'a' :: 'l' :: 's' :: 'e' :: r => some (.vBool false, r)
        | _ => none
      else if c = '"' then
        match parseJsonStrChars (rest.length + 1) rest with
        | some (s, r) => some (.vStr (String.mk s), r)
        | none => none
      else if c = '[' then
        match skipWs rest with
        | ']' :: r => some (.vArr [], r)
        | cs1 =>
          match parseJsonArrItems f cs1 with
          | some (vs, r) => some (.vArr vs, r)
          | none => none
      else if c = '\x7b' then
        match skipWs rest with
        | '\x7d' :: r => some (.vObj [], r)
        | cs1 =>
          match parseJsonObjItems f cs1 with
          | some (fs, r) => some (.vObj fs, r)
          | none => none
      else
        match parseJsonNumber (c :: rest) with
        | some (q, r) => some (.vNum q, r)
        | none => none

/-- parseJsonArrItems reads one-or-more comma-separated array items up to
the closing bracket. -/
def parseJsonArrItems (fuel : Nat) (cs : List Char) : Option (List Value × List Char) :=
  match fuel with
  | 0 => none
  | f + 1 =>
    match parseJsonVal f cs with
    | none => none
    | some (v, r) =>
      match skipWs r with
      | ',' :: r2 =>
        match parseJsonArrItems f r2 with
        | some (vs, r3) => some (v :: vs, r3)
        | none => none
      | ']' :: r2 => some ([v], r2)
      | _ => none

/-- parseJsonObjItems reads one-or-more comma-separated object members up
to the closing brace. -/
def parseJsonObjItems (fuel : Nat) (cs : List Char) : Option (List (String × Value) × List Char) :=
  match fuel with
  | 0 => none
  | f + 1 =>
    match skipWs cs with
    | '"' :: r =>
      match parseJsonStrChars (r.length + 1) r with
      | none => none
      | some (kchars, r1) =>
        match skipWs r1 with
        | ':' :: r2 =>
          match parseJsonVal f r2 with
          | none => none
          | some (v, r3) =>
            match skipWs r3 with
            | ',' :: r4 =>
              match parseJsonObjItems f r4 with
              | some (fs, r5) => some ((String.mk kchars, v) :: fs, r5)
              | none => none
            | '\x7d' :: r4 => some ([(String.mk kchars, v)], r4)
            | _ => none
        | _ => none
    | _ => none

end

/-- jsonParse models `JSON.parse`: parse one value and require that only
whitespace remains. -/
def jsonParse (s : String) : Option Value :=
  match parseJsonVal (s.length + 1) s.data with
  | some (v, r) => if (skipWs r).isEmpty then some v else none
  | none => none

/-- isNullish tests for null or undefined. -/
def Value.isNullish : Value → Bool
  | .vNull => true
  | .vUndef => true
  | _ => false

mutual
/-- jsString models JavaScript `String(value)` on the modelled values.
Date objects never reach String() on the code paths the claims exercise,
so their locale-dependent JS rendering is stood in for by the ISO string. -/
def jsString : Value → String
  | .vStr s => s
  | .vNum q => numToString q
  | .vNaN => "NaN"
  | .vBool b => if b then "true" else "false"
  | .vNull => "null"
  | .vUndef => "undefined"
  | .vObj _ => "[object Object]"
  | .vDate ms => isoString ms
  | .vInvalidDate => "Invalid Date"
  | .vArr xs => joinSep "," (jsStringArrItems xs)

/-- jsStringArrItems renders array elements for Array.prototype.toString
(null/undefined elements render empty). -/
def jsStringArrItems : List Value → List String
  | [] => []
  | v :: rest => (if v.isNullish then "" else jsString v) :: jsStringArrItems rest
end

/-- jsTrim models `String.prototype.trim` (common whitespace). -/
def jsTrim (s : String) : String :=
  String.mk (((s.data.dropWhile isWsChar).reverse.dropWhile isWsChar).reverse)

/-- parseNumChars reads a JS numeric literal: optional sign, digits with
optional fraction and exponent (also the ".5" and "5." forms). -/
def parseNumChars (cs : List Char) : Option (Rat × List Char) :=
  let (neg, cs1) : Bool × List Char :=
    match cs with
    | '+' :: r => (false, r)
    | '-' :: r => (true, r)
    | _ => (false, cs)
  let (ids, cs2) := spanDigits cs1
  let (fds, cs3) : List Char × List Char :=
    match cs2 with
    | '.' :: r => spanDigits r
    | _ => ([], cs2)
  if ids.isEmpty ∧ fds.isEmpty then none
  else
    match parseExp cs3 with
    | none => none
    | some (ex, cs4) =>
        some (ratOfParts neg (digitsToNat ids) (digitsToNat fds) fds.length ex, cs4)

/-- parseNumFull models `Number(string)`: trimmed empty string is 0, else
the whole string must be a numeric literal (hex/Infinity forms are outside
the model and yield none, i.e. NaN). -/
def parseNumFull (s : String) : Option Rat :=
  let cs := (jsTrim s).data
  if cs.isEmpty then some 0
  else
    match parseNumChars cs with
    | some (q, rest) => if rest.isEmpty then some q else none
    | none => none

/-- jsToNumber models JavaScript `Number(value)`; none stands for NaN. -/
def jsToNumber : Value → Option Rat
  | .vNum q => some q
  | .vNaN => none
  | .vBool b => some (if b then 1 else 0)
  | .vNull => some 0
  | .vUndef => none
  | .vStr s => parseNumFull s
  | .vDate ms => some (ms : Rat)
  | .vInvalidDate => none
  | .vObj _ => none
  | .vArr xs => parseNumFull (jsString (.vArr xs))

/-- jsNumberV packages jsToNumber back into a Value (NaN on failure). -/
def jsNumberV (v : Value) : Value :=
  match jsToNumber v with
  | some q => .vNum q
  | none => .vNaN

/-- truthy models JavaScript boolean coercion. -/
def truthy : Value → Bool
  | .vBool b => b
  | .vNum q => decide (q ≠ 0)
  | .vNaN => false
  | .vStr s => decide (s ≠ "")
  | .vNull => false
  | .vUndef => false
  | _ => true

/-- jsTrunc models `Math.trunc` (round toward zero). -/
def jsTrunc (q : Rat) : Int :=
  if 0 ≤ q then ⌊q⌋ else ⌈q⌉

/-- jsNewDate models `new Date(string)` on the ISO format the layer itself
produces; strings outside that format give the Invalid Date object (JS
would attempt further legacy formats, none of which the claims exercise). -/
def jsNewDate (s : String) : Value :=
  match parseISO s with
  | some ms => .vDate ms
  | none => .vInvalidDate

/-- FieldTypes is the semantic type enum of src/src/schema.ts (the variant
accompanying table.ts: Int, Float, Boolean, Text, Password, Email,
DateTime, Day, UUID, Array, Json). -/
inductive FieldTypes where
  | Int
  | Float
  | Boolean
  | Text
  | Password
  | Email
  | DateTime
  | Day
  | UUID
  | Array
  | Json
deriving DecidableEq, Repr

/-- RefKind is the cardinality tag of a reference ("One" | "Many"). -/
inductive RefKind where
  | one
  | many
deriving DecidableEq, Repr

/-- FieldRef is the reference descriptor stored by `.reference(...)`:
target table name, target field, cardinality. -/
structure FieldRef where
  TableName : String
  Field : String
  kind : RefKind
deriving DecidableEq, Repr

/-- OptimaField embeds the OptimaField class of src/src/schema.ts (the
variant at lines 853-928).  The class's `Type` member is called `ftype`
here because `Type` is reserved in Lean.  The constructor semantics
(`notNull ? true : false`, `?? null` defaults) are folded into the Bool
and Option representations.  Note the class declares NO `isNotNullField`
method; see isNotNullFieldMember below. -/
structure OptimaField where
  ftype : FieldTypes
  NotNull : Bool
  Default : Option Value
  Enum : Option (List Value)
  Reference : Option FieldRef
  Unique : Bool
  Check : Option String
  PrimaryKey : Bool
  AutoIncrement : Bool

/-- fieldOf builds a field of a semantic type with every option absent,
mirroring `new OptimaField(type, {})`. -/
def fieldOf (t : FieldTypes) : OptimaField :=
  ⟨t, false, none, none, none, false, none, false, false⟩

/-- sqlTypeOf is the OptimaToSQLMAP of the OptimaField constructor. -/
def sqlTypeOf : FieldTypes → String
  | .Email => "TEXT"
  | .Text => "TEXT"
  | .DateTime => "TEXT"
  | .Day => "TEXT"
  | .Password => "TEXT"
  | .UUID => "TEXT"
  | .Int => "INTEGER"
  | .Boolean => "INTEGER"
  | .Float => "REAL"
  | .Json => "TEXT"
  | .Array => "TEXT"

/-- applyFormatIn embeds `applyFormatIn` of src/src/schema.ts (lines
987-1010): undefined/null pass through, Boolean → 0/1, Int → truncated
number, Float → number, Json/Array → JSON text (strings pass through),
DateTime → ISO string (Date) or String(value), Day → 10-char date prefix.
An Invalid Date reaching the DateTime/Day branches would throw a
RangeError in JS; no modelled code path constructs that case, and it is
left fixed here. -/
def applyFormatIn (f : OptimaField) (v : Value) : Value :=
  match v with
  | .vUndef => .vUndef
  | .vNull => .vNull
  | v =>
    match f.ftype with
    | .Boolean => .vNum (if truthy v then 1 else 0)
    | .Int =>
        match v with
        | .vNum q => .vNum (jsTrunc q : Int)
        | .vNaN => .vNaN
        | v => jsNumberV v
    | .Float =>
        match v with
        | .vNum q => .vNum q
        | .vNaN => .vNaN
        | v => jsNumberV v
    | .Json => match v with
        | .vStr s => .vStr s
        | v => .vStr (jsonStringify v)
    | .Array => match v with
        | .vStr s => .vStr s
        | v => .vStr (jsonStringify v)
    | .DateTime =>
        match v with
        | .vDate ms => .vStr (isoString ms)
        | .vInvalidDate => .vInvalidDate
        | v => .vStr (jsString v)
    | .Day =>
        match v with
        | .vDate ms => .vStr ((isoString ms).take 10)
        | .vInvalidDate => .vInvalidDate
        | .vStr s => .vStr (s.take 10)
        | v => .vStr (jsString v)
    | _ => v

/-- applyFormatOut embeds `applyFormatOut` of src/src/schema.ts (lines
1012-1039): undefined/null pass through, Boolean → (value === 1 || value
=== true), Int/Float → Number(value) for non-numbers, Json/Array → parsed
JSON (original string kept on parse failure), DateTime → new Date(string),
Day → String(value) for non-strings. -/
def applyFormatOut (f : OptimaField) (v : Value) : Value :=
  match v with
  | .vUndef => .vUndef
  | .vNull => .vNull
  | v =>
    match f.ftype with
    | .Boolean =>
        .vBool (match v with
          | .vNum q => decide (q = 1)
          | .vBool b => b
          | _ => false)
    | .Int =>
        match v with
        | .vNum _ => v
        | .vNaN => v
        | v => jsNumberV v
    | .Float =>
        match v with
        | .vNum _ => v
        | .vNaN => v
        | v => jsNumberV v
    | .Json =>
        match v with
        | .vStr s =>
            match jsonParse s with
            | some x => x
            | none => .vStr s
        | v => v
    | .Array =>
        match v with
        | .vStr s =>
            match jsonParse s with
            | some x => x
            | none => .vStr s
        | v => v
    | .DateTime =>
        match v with
        | .vStr s => jsNewDate s
        | v => v
    | .Day =>
        match v with
        | .vStr _ => v
        | v => .vStr (jsString v)
    | _ => v

/-- isHexDigit recognizes a hexadecimal digit (either case). -/
def isHexDigit (c : Char) : Bool :=
  ('0' ≤ c ∧ c ≤ '9') ∨ ('a' ≤ c ∧ c ≤ 'f') ∨ ('A' ≤ c ∧ c ≤ 'F')

/-- uuidCheck embeds the UUID regular expression of TypeChecker
(src/src/schema.ts lines 341-351): 8-4-4-4-12 hex with version digit 4 or
7 and variant 8/9/a/b, case-insensitive. -/
def uuidCheck (s : String) : Bool :=
  let cs := s.data
  cs.length = 36 &&
    cs.enum.all (fun p =>
      let i := p.1
      let c := p.2
      if i = 8 ∨ i = 13 ∨ i = 18 ∨ i = 23 then c = '-'
      else if i = 14 then c = '4' ∨ c = '7'
      else if i = 19 then c = '8' ∨ c = '9' ∨ c = 'a' ∨ c = 'b' ∨ c = 'A' ∨ c = 'B'
      else isHexDigit c)

/-- emailCheck embeds the email regular expression of TypeChecker
(`^[^\s@]+@[^\s@]+\.[^\s@]+$`): exactly one `@`, a nonempty
whitespace-free local part, and a nonempty whitespace-free domain with an
interior dot. -/
def emailCheck (s : String) : Bool :=
  match s.split (· = '@') with
  | [a, b] =>
      !a.isEmpty && a.data.all (fun c => !isWsChar c) &&
      !b.isEmpty && b.data.all (fun c => !isWsChar c) &&
      b.data.enum.any (fun p => p.2 = '.' ∧ 0 < p.1 ∧ p.1 + 1 < b.length)
  | _ => false

/-- jsNewDateValid models `new Date(value).toString() !== "Invalid Date"`.
String inputs are judged by the ISO format of the model (see jsNewDate);
array inputs coerce through strings JS-side and are not exercised by any
claim, so they are mapped to false here. -/
def jsNewDateValid : Value → Bool
  | .vNum _ => true
  | .vNaN => false
  | .vBool _ => true
  | .vNull => true
  | .vUndef => false
  | .vDate _ => true
  | .vInvalidDate => false
  | .vStr s => (parseISO s).isSome
  | .vArr _ => false
  | .vObj _ => false

/-- TypeChecker embeds the exported TypeChecker of src/src/schema.ts
(lines 300-355).  That variant's enum has no Day member, so Day falls to
the default branch (false).  Note the Float case demands a number that is
NOT an integer, exactly as the source does. -/
def TypeChecker (value : Value) (t : FieldTypes) : Bool :=
  match t with
  | .Int =>
      match value with
      | .vNum q => q.den = 1
      | _ => false
  | .Float =>
      match value with
      | .vNum q => decide (q.den ≠ 1)
      | _ => false
  | .DateTime => jsNewDateValid value
  | .Boolean =>
      match value with
      | .vBool _ => true
      | _ => false
  | .Text =>
      match value with
      | .vStr _ => true
      | _ => false
  | .Email =>
      match value with
      | .vStr s => emailCheck s
      | _ => false
  | .Password =>
      match value with
      | .vStr s => decide (s.length > 0)
      | _ => false
  | .Array =>
      match value with
      | .vArr _ => true
      | _ => false
  | .Json =>
      match value with
      | .vObj _ => true
      | _ => false
  | .UUID =>
      match value with
      | .vStr s => uuidCheck s
      | _ => false
  | .Day => false

/-- Schema is the ordered columnName → OptimaField mapping of one table
declaration (Object.keys order, the __tableName marker already removed,
as InitTable leaves it). -/
abbrev Schema := List (String × OptimaField)

/-- lookupField finds a column's field, modelling `cols[column]`. -/
def lookupField (sch : Schema) (c : String) : Option OptimaField :=
  (sch.find? (fun p => p.1 = c)).map Prod.snd

/-- ensureFormatted embeds the `ensureFormatted` helper of
buildWhereClause (src/src/table.ts lines 482-488): filter literals pass
through the field's inbound formatter when the column is declared. -/
def ensureFormatted (sch : Schema) (column : String) (v : Value) : Value :=
  match lookupField sch column with
  | some f => applyFormatIn f v
  | none => v

/-- OpVal is the runtime shape of a value handed to one operator key of a
filter operator object, as the compiler's typeof/Array.isArray dispatch
distinguishes them: null, a non-object scalar, an array, or a nested
operator object (used by $not). -/
inductive OpVal where
  | oNull
  | oScalar (v : Value)
  | oList (vs : List Value)
  | oOps (os : List (String × OpVal))

mutual
/-- toVal reconstructs the plain JS value an OpVal denotes (used where the
compiler passes the operand straight into the parameter list). -/
def OpVal.toVal : OpVal → Value
  | .oNull => .vNull
  | .oScalar v => v
  | .oList vs => .vArr vs
  | .oOps os => .vObj (OpVal.toValList os)

/-- toValList converts the members of a nested operator object. -/
def OpVal.toValList : List (String × OpVal) → List (String × Value)
  | [] => []
  | (k, a) :: rest => (k, OpVal.toVal a) :: OpVal.toValList rest
end

/-- WhereVal is the runtime shape of the value attached to a column key in
a filter object: null, a scalar, an array (membership), or an operator
object. -/
inductive WhereVal where
  | wNull
  | wScalar (v : Value)
  | wList (vs : List Value)
  | wOps (os : List (String × OpVal))

mutual
/-- WhereEntry is one key of a filter object: a `$or`/`$and` key carrying
sub-filters, or a column key carrying a WhereVal. -/
inductive WhereEntry where
  | logical (isOr : Bool) (subs : List WhereObj)
  | wCol (column : String) (v : WhereVal)
/-- WhereObj is a filter object: its entries in key order. -/
inductive WhereObj where
  | mk (entries : List WhereEntry)
end

/-- Frag is one emitted predicate fragment together with the parameters
pushed alongside it (the source pushes into `parts`/`params` in lockstep;
the compiled clause is the " AND "-join of the texts and the parameter
array is the concatenation of the per-fragment parameter lists in the
same order). -/
abbrev Frag := String × List Value

/-- quoteCol renders a double-quoted column identifier. -/
def quoteCol (c : String) : String := "\"" ++ c ++ "\""

/-- placeholders models `arr.map(() => "?").join(", ")`. -/
def placeholders (n : Nat) : String := joinSep ", " (List.replicate n "?")

/-- fragCmp is a one-placeholder comparison fragment: the quoted column,
an operator text such as " = ?", and the formatted operand as its single
parameter. -/
def fragCmp (sch : Schema) (column : String) (t : String) (v : Value) : List Frag :=
  [(quoteCol column ++ t, [ensureFormatted sch column v])]

/-- fragNullness is a parameterless IS NULL / IS NOT NULL fragment. -/
def fragNullness (column : String) (wantNull : Bool) : List Frag :=
  if wantNull then [(quoteCol column ++ " IS NULL", [])]
  else [(quoteCol column ++ " IS NOT NULL", [])]

/-- fragBetween is the `$between` fragment: two placeholders fed by the
first two array elements (undefined when absent, as JS destructuring of a
short array yields). -/
def fragBetween (sch : Schema) (column : String) (a : OpVal) : List Frag :=
  let vs : List Value := match a with | .oList vs => vs | _ => []
  [(quoteCol column ++ " BETWEEN ? AND ?",
    [ensureFormatted sch column (vs.getD 0 .vUndef),
     ensureFormatted sch column (vs.getD 1 .vUndef)])]

/-- fragInList is the membership fragment shared by the `$in`/`$nin`
switch cases and the plain-array column case of processNode: the empty
list compiles to the constant predicate given by `emptyText` ("1 = 0" for
IN, "1 = 1" for NOT IN) with no parameters. -/
def fragInList (sch : Schema) (column : String) (neg : Bool) (emptyText : String)
    (vs : List Value) : List Frag :=
  if vs.isEmpty then [(emptyText, [])]
  else
    [(quoteCol column ++ (if neg then " NOT IN (" else " IN (") ++
        placeholders vs.length ++ ")",
      vs.map (ensureFormatted sch column))]

/-- fragNe is the `$ne` case: IS NOT NULL against null, `<>` otherwise. -/
def fragNe (sch : Schema) (column : String) (a : OpVal) : List Frag :=
  match a with
  | .oNull => fragNullness column false
  | _ => fragCmp sch column " <> ?" a.toVal

/-- listOrEmpty models `Array.isArray(value) ? value : []`. -/
def OpVal.listOrEmpty : OpVal → List Value
  | .oList vs => vs
  | _ => []

/-- isNullWanted models the `$is` test `value === null || value === "null"`. -/
def OpVal.isNullWanted : OpVal → Bool
  | .oNull => true
  | .oScalar (.vStr s) => s = "null"
  | _ => false

/-- compileOpBase covers the non-recursive cases of `compileColumnOp` of
buildWhereClause (src/src/table.ts lines 490-589): every operator except
`$not` (handled in compileOp, which alone recurses), plus the permissive
default branch for unknown operators.  The switch cases test mutually
exclusive string equalities, so hoisting `$not` out preserves the source's
dispatch exactly. -/
def compileOpBase (sch : Schema) (column : String) (op : String) (a : OpVal) : List Frag :=
  if op = "$eq" then fragCmp sch column " = ?" a.toVal
  else if op = "$ne" then fragNe sch column a
  else if op = "$gt" then fragCmp sch column " > ?" a.toVal
  else if op = "$gte" then fragCmp sch column " >= ?" a.toVal
  else if op = "$lt" then fragCmp sch column " < ?" a.toVal
  else if op = "$lte" then fragCmp sch column " <= ?" a.toVal
  else if op = "$like" then fragCmp sch column " LIKE ?" a.toVal
  else if op = "$between" then fragBetween sch column a
  else if op = "$in" then fragInList sch column false "1 = 0" a.listOrEmpty
  else if op = "$nin" then fragInList sch column true "1 = 1" a.listOrEmpty
  else if op = "$is" then fragNullness column a.isNullWanted
  else fragCmp sch column " = ?" a.toVal

mutual
/-- compileOp embeds `compileColumnOp`: the `$not` case (which recursively
compiles a nested operator object through the same machinery, as
`buildForObject({[column]: value})` does) plus compileOpBase for every
other operator. -/
def compileOp (sch : Schema) (column : String) (op : String) (a : OpVal) : List Frag :=
  if op = "$not" then
    match a with
    | .oOps os =>
        let inner := compileOps sch column os
        let part := joinSep " AND " (inner.map Prod.fst)
        if part = "" then []
        else [("NOT (" ++ part ++ ")", inner.flatMap Prod.snd)]
    | .oList vs =>
        [("NOT (" ++ quoteCol column ++ " IN (" ++ placeholders vs.length ++ "))",
          vs.map (ensureFormatted sch column))]
    | .oNull => [(quoteCol column ++ " IS NOT NULL", [])]
    | .oScalar v => [("NOT (" ++ quoteCol column ++ " = ?)", [ensureFormatted sch column v])]
  else
    compileOpBase sch column op a

/-- compileOps walks an operator object's keys in order (the `for (const
[op, v] of Object.entries(valueRef))` loop). -/
def compileOps (sch : Schema) (column : String) : List (String × OpVal) → List Frag
  | [] => []
  | (op, a) :: rest => compileOp sch column op a ++ compileOps sch column rest
end

/-- compileVal dispatches a column key's value by runtime shape, as
`processNode` does: null → IS NULL, array → IN list (empty → 1 = 0),
operator object → per-operator fragments, scalar → equality. -/
def compileVal (sch : Schema) (column : String) : WhereVal → List Frag
  | .wNull => fragNullness column true
  | .wScalar v => fragCmp sch column " = ?" v
  | .wList vs => fragInList sch column false "1 = 0" vs
  | .wOps os => compileOps sch column os

mutual
/-- compileEntry embeds `processNode`: a `$or`/`$and` key compiles each
sub-filter, keeps the nonempty ones parenthesized and joined, and pushes
one combined fragment; a column key compiles by value shape. -/
def compileEntry (sch : Schema) : WhereEntry → List Frag
  | .wCol column v => compileVal sch column v
  | .logical isOr subs =>
      let joiner := if isOr then " OR " else " AND "
      let kept := (compileSubs sch subs).filter (fun p => p.1 ≠ "")
      if kept.isEmpty then []
      else [(joinSep joiner (kept.map (fun p => "(" ++ p.1 ++ ")")), kept.flatMap Prod.snd)]

/-- compileSubs compiles each sub-filter of a logical key. -/
def compileSubs (sch : Schema) : List WhereObj → List (String × List Value)
  | [] => []
  | o :: rest => compileObjPair sch o :: compileSubs sch rest

/-- compileObjPair embeds `buildForObject`: compile every entry and join
the emitted parts with " AND ". -/
def compileObjPair (sch : Schema) : WhereObj → String × List Value
  | .mk entries =>
      let frags := compileEntries sch entries
      (joinSep " AND " (frags.map Prod.fst), frags.flatMap Prod.snd)

/-- compileEntries walks the filter object's keys in order. -/
def compileEntries (sch : Schema) : List WhereEntry → List Frag
  | [] => []
  | e :: rest => compileEntry sch e ++ compileEntries sch rest
end

/-- buildWhereClause embeds `buildWhereClause` of src/src/table.ts (lines
453-657) on the structured filter surface (its typed WhereInput): an
absent/undefined filter or an empty object yields no clause and no
parameters; otherwise the object is compiled and prefixed with " WHERE "
unless every fragment vanished. -/
def buildWhereClause (sch : Schema) (w : Option WhereObj) : String × List Value :=
  match w with
  | none => ("", [])
  | some (.mk []) => ("", [])
  | some obj =>
      let c := compileObjPair sch obj
      if c.1 = "" then ("", [])
      else (" WHERE " ++ c.1, c.2)

/-- qcount counts the `?` placeholder characters of a SQL fragment. -/
def qcount (s : String) : Nat := s.data.count '?'

theorem qcount_append (a b : String) : qcount (a ++ b) = qcount a + qcount b := by
  simp [qcount, String.data_append, List.count_append]

theorem qcount_empty : qcount "" = 0 := by decide

theorem qcount_quoteCol (c : String) : qcount (quoteCol c) = qcount c := by
  have h : qcount "\"" = 0 := by decide
  simp [quoteCol, qcount_append, h]

theorem qcount_joinSep (sep : String) (hsep : qcount sep = 0) :
    ∀ l : List String, qcount (joinSep sep l) = (l.map qcount).sum
  | [] => by simp [joinSep, qcount_empty]
  | [s] => by simp [joinSep]
  | s :: s2 :: rest => by
      have ih := qcount_joinSep sep hsep (s2 :: rest)
      simp only [joinSep, qcount_append, hsep] at ih ⊢
      simp only [List.map_cons, List.sum_cons] at ih ⊢
      omega

theorem qcount_placeholders (n : Nat) : qcount (placeholders n) = n := by
  have h1 : qcount "?" = 1 := by decide
  have h2 : qcount ", " = 0 := by decide
  rw [placeholders, qcount_joinSep ", " h2]
  simp [List.map_replicate, List.sum_replicate, h1]

/-- FragsOk says every emitted fragment carries exactly as many `?`
placeholders as parameters. -/
def FragsOk (l : List Frag) : Prop := ∀ f ∈ l, qcount f.1 = f.2.length

theorem fragsOk_nil : FragsOk [] := by
  intro f hf
  cases hf

theorem fragsOk_single {t : String} {ps : List Value} (h : qcount t = ps.length) :
    FragsOk [(t, ps)] := by
  intro f hf
  rw [List.mem_singleton] at hf
  subst hf
  exact h

theorem fragsOk_append {a b : List Frag} (ha : FragsOk a) (hb : FragsOk b) :
    FragsOk (a ++ b) := by
  intro f hf
  rcases List.mem_append.mp hf with hf | hf
  · exact ha f hf
  · exact hb f hf

/-- qcount_join_of_ok turns per-fragment alignment into alignment of the
joined clause against the concatenated parameter list. -/
theorem qcount_join_of_ok (sep : String) (hsep : qcount sep = 0)
    (frags : List Frag) (hf : FragsOk frags) :
    qcount (joinSep sep (frags.map Prod.fst)) = (frags.flatMap Prod.snd).length := by
  rw [qcount_joinSep sep hsep, List.length_flatMap, List.map_map]
  exact congrArg List.sum (List.map_congr_left (fun f hmem => hf f hmem))

theorem q_eqm : qcount " = ?" = 1 := by decide
theorem q_nem : qcount " <> ?" = 1 := by decide
theorem q_gtm : qcount " > ?" = 1 := by decide
theorem q_gem : qcount " >= ?" = 1 := by decide
theorem q_ltm : qcount " < ?" = 1 := by decide
theorem q_lem : qcount " <= ?" = 1 := by decide
theorem q_likem : qcount " LIKE ?" = 1 := by decide
theorem q_betweenm : qcount " BETWEEN ? AND ?" = 2 := by decide
theorem q_truem : qcount "1 = 1" = 0 := by decide
theorem q_falsem : qcount "1 = 0" = 0 := by decide
theorem q_inopen : qcount " IN (" = 0 := by decide
theorem q_ninopen : qcount " NOT IN (" = 0 := by decide
theorem q_close : qcount ")" = 0 := by decide
theorem q_isnull : qcount " IS NULL" = 0 := by decide
theorem q_isnotnull : qcount " IS NOT NULL" = 0 := by decide
theorem q_notopen : qcount "NOT (" = 0 := by decide
theorem q_popen : qcount "(" = 0 := by decide
theorem q_close2 : qcount "))" = 0 := by decide
theorem q_eqclose : qcount " = ?)" = 1 := by decide
theorem q_wherekw : qcount " WHERE " = 0 := by decide

theorem fragCmp_ok (sch : Schema) (column : String) (hcol : qcount column = 0)
    (t : String) (ht : qcount t = 1) (v : Value) : FragsOk (fragCmp sch column t v) :=
  fragsOk_single (by simp [qcount_append, qcount_quoteCol, hcol, ht])

theorem fragNullness_ok (column : String) (hcol : qcount column = 0) (b : Bool) :
    FragsOk (fragNullness column b) := by
  unfold fragNullness
  split
  · exact fragsOk_single (by simp [qcount_append, qcount_quoteCol, hcol, q_isnull])
  · exact fragsOk_single (by simp [qcount_append, qcount_quoteCol, hcol, q_isnotnull])

theorem fragBetween_ok (sch : Schema) (column : String) (hcol : qcount column = 0)
    (a : OpVal) : FragsOk (fragBetween sch column a) :=
  fragsOk_single (by simp [qcount_append, qcount_quoteCol, hcol, q_betweenm, fragBetween])

theorem fragInList_ok (sch : Schema) (column : String) (hcol : qcount column = 0)
    (neg : Bool) (emptyText : String) (he : qcount emptyText = 0) (vs : List Value) :
    FragsOk (fragInList sch column neg emptyText vs) := by
  unfold fragInList
  split
  · exact fragsOk_single (by simp [he])
  · refine fragsOk_single ?_
    cases neg <;>
      simp [qcount_append, qcount_quoteCol, hcol, q_inopen, q_ninopen, q_close,
        qcount_placeholders]

theorem fragNe_ok (sch : Schema) (column : String) (hcol : qcount column = 0)
    (a : OpVal) : FragsOk (fragNe sch column a) := by
  unfold fragNe
  cases a
  · exact fragNullness_ok column hcol false
  · exact fragCmp_ok sch column hcol _ q_nem _
  · exact fragCmp_ok sch column hcol _ q_nem _
  · exact fragCmp_ok sch column hcol _ q_nem _

set_option maxHeartbeats 1000000 in
theorem compileOpBase_ok (sch : Schema) (column : String) (hcol : qcount column = 0)
    (op : String) (a : OpVal) : FragsOk (compileOpBase sch column op a) := by
  unfold compileOpBase
  split_ifs
  · exact fragCmp_ok sch column hcol _ q_eqm _
  · exact fragNe_ok sch column hcol a
  · exact fragCmp_ok sch column hcol _ q_gtm _
  · exact fragCmp_ok sch column hcol _ q_gem _
  · exact fragCmp_ok sch column hcol _ q_ltm _
  · exact fragCmp_ok sch column hcol _ q_lem _
  · exact fragCmp_ok sch column hcol _ q_likem _
  · exact fragBetween_ok sch column hcol _
  · exact fragInList_ok sch column hcol _ _ q_falsem _
  · exact fragInList_ok sch column hcol _ _ q_truem _
  · exact fragNullness_ok column hcol _
  · exact fragCmp_ok sch column hcol _ q_eqm _

mutual

theorem compileOp_ok (sch : Schema) (column : String) (hcol : qcount column = 0)
    (op : String) (a : OpVal) : FragsOk (compileOp sch column op a) := by
  rw [compileOp.eq_def]
  split
  · cases a with
    | oOps os =>
        have hin := compileOps_ok sch column hcol os
        simp only []
        split
        · exact fragsOk_nil
        · refine fragsOk_single ?_
          have hj := qcount_join_of_ok " AND " (by decide) (compileOps sch column os) hin
          simp [qcount_append, q_notopen, q_close, hj]
    | oList vs =>
        refine fragsOk_single ?_
        simp [qcount_append, qcount_quoteCol, hcol, q_notopen, q_inopen, q_close2,
          qcount_placeholders]
    | oNull =>
        exact fragsOk_single (by simp [qcount_append, qcount_quoteCol, hcol, q_isnotnull])
    | oScalar v =>
        exact fragsOk_single (by
          simp [qcount_append, qcount_quoteCol, hcol, q_notopen, q_eqclose])
  · exact compileOpBase_ok sch column hcol op a

theorem compileOps_ok (sch : Schema) (column : String) (hcol : qcount column = 0)
    (os : List (String × OpVal)) : FragsOk (compileOps sch column os) := by
  match os with
  | [] =>
      rw [compileOps.eq_def]
      exact fragsOk_nil
  | (op, a) :: rest =>
      rw [compileOps.eq_def]
      exact fragsOk_append (compileOp_ok sch column hcol op a)
        (compileOps_ok sch column hcol rest)

end

theorem compileVal_ok (sch : Schema) (column : String) (hcol : qcount column = 0)
    (v : WhereVal) : FragsOk (compileVal sch column v) := by
  cases v with
  | wNull => exact fragNullness_ok column hcol true
  | wScalar v => exact fragCmp_ok sch column hcol _ q_eqm _
  | wList vs => exact fragInList_ok sch column hcol _ _ q_falsem _
  | wOps os => exact compileOps_ok sch column hcol os

mutual
/-- entryColsOk says every column name used in the entry is free of `?`
characters (true of any real schema; a `?` inside a quoted identifier
would otherwise be miscounted as a placeholder). -/
def entryColsOk : WhereEntry → Bool
  | .wCol column _ => qcount column = 0
  | .logical _ subs => subsColsOk subs
/-- subsColsOk extends entryColsOk over a list of sub-filters. -/
def subsColsOk : List WhereObj → Bool
  | [] => true
  | o :: rest => objColsOk o && subsColsOk rest
/-- objColsOk extends entryColsOk over a filter object. -/
def objColsOk : WhereObj → Bool
  | .mk entries => entriesColsOk entries
/-- entriesColsOk extends entryColsOk over an entry list. -/
def entriesColsOk : List WhereEntry → Bool
  | [] => true
  | e :: rest => entryColsOk e && entriesColsOk rest
end

mutual

theorem compileEntry_ok (sch : Schema) (e : WhereEntry) (h : entryColsOk e = true) :
    FragsOk (compileEntry sch e) := by
  match e with
  | .wCol column v =>
      have hcol : qcount column = 0 := by
        simpa [entryColsOk] using h
      rw [compileEntry.eq_def]
      exact compileVal_ok sch column hcol v
  | .logical isOr subs =>
      have hsubs : subsColsOk subs = true := by
        simpa [entryColsOk] using h
      have hjoin : qcount (if isOr then " OR " else " AND ") = 0 := by
        cases isOr <;> decide
      rw [compileEntry.eq_def]
      simp only []
      split
      · exact fragsOk_nil
      · refine fragsOk_single ?_
        have hkept : ∀ p ∈ (compileSubs sch subs).filter (fun p => p.1 ≠ ""),
            qcount p.1 = p.2.length := by
          intro p hp
          exact compileSubs_ok sch subs hsubs p (List.mem_of_mem_filter hp)
        have hwrapped : FragsOk (((compileSubs sch subs).filter (fun p => p.1 ≠ "")).map
            (fun p => ("(" ++ p.1 ++ ")", p.2))) := by
          intro f hf
          rcases List.mem_map.mp hf with ⟨p, hp, rfl⟩
          simp only [qcount_append, q_popen, q_close]
          have := hkept p hp
          omega
        have hj := qcount_join_of_ok (if isOr then " OR " else " AND ") hjoin _ hwrapped
        simpa [List.map_map, Function.comp] using hj

theorem compileSubs_ok (sch : Schema) (subs : List WhereObj) (h : subsColsOk subs = true) :
    ∀ p ∈ compileSubs sch subs, qcount p.1 = p.2.length := by
  match subs with
  | [] =>
      intro p hp
      rw [compileSubs.eq_def] at hp
      cases hp
  | o :: rest =>
      have hboth : objColsOk o = true ∧ subsColsOk rest = true := by
        have := h
        rw [subsColsOk] at this
        simpa using this
      have ho := hboth.1
      have hr := hboth.2
      intro p hp
      rw [compileSubs.eq_def] at hp
      rcases List.mem_cons.mp hp with rfl | hp
      · exact compileObjPair_ok sch o ho
      · exact compileSubs_ok sch rest hr p hp

theorem compileObjPair_ok (sch : Schema) (o : WhereObj) (h : objColsOk o = true) :
    qcount (compileObjPair sch o).1 = (compileObjPair sch o).2.length := by
  match o with
  | .mk entries =>
      have he : entriesColsOk entries = true := by
        simpa [objColsOk] using h
      rw [compileObjPair.eq_def]
      simp only []
      exact qcount_join_of_ok " AND " (by decide) _ (compileEntries_ok sch entries he)

theorem compileEntries_ok (sch : Schema) (entries : List WhereEntry)
    (h : entriesColsOk entries = true) : FragsOk (compileEntries sch entries) := by
  match entries with
  | [] =>
      rw [compileEntries.eq_def]
      exact fragsOk_nil
  | e :: rest =>
      have hboth : entryColsOk e = true ∧ entriesColsOk rest = true := by
        have := h
        rw [entriesColsOk] at this
        simpa using this
      have he := hboth.1
      have hr := hboth.2
      rw [compileEntries.eq_def]
      exact fragsOk_append (compileEntry_ok sch e he) (compileEntries_ok sch rest hr)

end

/-- Row is a JS object holding one row's column → value entries in
insertion order. -/
abbrev Row := List (String × Value)

/-- lookupRow models property access `row[k]` (none when absent). -/
def lookupRow (r : Row) (k : String) : Option Value :=
  (r.find? (fun p => p.1 = k)).map Prod.snd

/-- hasOwn models `Object.prototype.hasOwnProperty.call(row, k)`: true
also when the stored value is undefined. -/
def hasOwn (r : Row) (k : String) : Bool :=
  (r.find? (fun p => p.1 = k)).isSome

/-- SqlCall is one prepared statement dispatched to the storage engine:
its SQL text and bound parameters. -/
structure SqlCall where
  sql : String
  params : List Value

/-- missingFieldMsg is the first NOT NULL error template of Insert. -/
def missingFieldMsg (key name : String) : String :=
  "Missing required field: " ++ key ++ " on insert into " ++ name

/-- nullFieldMsg is the second NOT NULL error template of Insert. -/
def nullFieldMsg (key name : String) : String :=
  "Field " ++ key ++ " is NOT NULL and must be provided with a non-null value in " ++ name

/-- nullishVal tests `v === null || v === undefined` on a property-access
result. -/
def nullishVal : Option Value → Bool
  | some .vNull => true
  | some .vUndef => true
  | _ => false

/-- notNullViolation walks the schema keys in declaration order and
returns the first NOT NULL column whose runtime check fails, exactly as
the validation loop of Insert does (src/src/table.ts lines 319-343): the
key is absent from the values (flag true → "Missing required field"
message) or present but null/undefined (flag false → the second
message). -/
def notNullViolation (values : Row) : Schema → Option (String × Bool)
  | [] => none
  | (k, f) :: rest =>
      if f.NotNull then
        if hasOwn values k = false then some (k, true)
        else if nullishVal (lookupRow values k) then some (k, false)
        else notNullViolation values rest
      else notNullViolation values rest

/-- Insert embeds OptimaTB.Insert (src/src/table.ts lines 315-367): the
NOT NULL validation loop runs first and throws before any SQL text is
built or prepared; only then is the parameterized INSERT assembled, the
values passed through applyFormatIn, and the statement run (modelled as
appending the formatted row; engine-side constraints such as UNIQUE are
the storage engine's concern and outside this model). -/
def Insert (sch : Schema) (name : String) (values : Row) (rows : List Row) :
    Except String (SqlCall × List Row) :=
  match notNullViolation values sch with
  | some (k, true) => .error (missingFieldMsg k name)
  | some (k, false) => .error (nullFieldMsg k name)
  | none =>
      let columns := values.map Prod.fst
      let sql := "INSERT INTO \"" ++ name ++ "\" (" ++
        joinSep ", " (columns.map quoteCol) ++ ") VALUES (" ++
        placeholders columns.length ++ ")"
      let formatted := values.map (fun p =>
        match lookupField sch p.1 with
        | some f => applyFormatIn f p.2
        | none => p.2)
      .ok (⟨sql, formatted⟩, rows ++ [columns.zip formatted])

/-- isNotNullFieldMember records that the OptimaField class of
src/src/schema.ts (lines 853-928) declares NO `isNotNullField` method:
its members are Type, SQLType, Default, Enum, Reference, Unique, Check,
NotNull, PrimaryKey, AutoIncrement and the single method `reference`.
The optional call `field?.isNotNullField?.()` in Update therefore always
evaluates to undefined.  (A sibling schema-module variant in the
repository does define such a method, which is what the guard was written
against.) -/
def isNotNullFieldMember : Option (OptimaField → Bool) := none

/-- updateGuardFires models Update's guard
`field?.isNotNullField?.() && values[key] === null`. -/
def updateGuardFires (f : OptimaField) (v : Value) : Bool :=
  match isNotNullFieldMember with
  | some m => m f && (match v with | .vNull => true | _ => false)
  | none => false

/-- nullUpdateMsg is the error template of Update's NOT NULL guard. -/
def nullUpdateMsg (key name : String) : String :=
  "Field " ++ key ++ " is NOT NULL and cannot be set to null in " ++ name

/-- findUpdateViolation walks the change set's keys and returns the first
one whose guard fires (none ever does, since isNotNullFieldMember is
none). -/
def findUpdateViolation (sch : Schema) (values : Row) : Option String :=
  (values.find? (fun p =>
    match lookupField sch p.1 with
    | some f => updateGuardFires f p.2
    | none => false)).map Prod.fst

/-- Update embeds OptimaTB.Update (src/src/table.ts lines 377-417): the
null-into-NOT-NULL guard loop, the `{changes: 0}` early return on an
empty change set (no SQL), then the parameterized UPDATE built from the
formatted set values followed by the compiled WHERE parameters.  The
returned SqlCall is the statement handed to the engine; none means no SQL
was prepared. -/
def Update (sch : Schema) (name : String) (values : Row) (w : Option WhereObj) :
    Except String (Option SqlCall) :=
  match findUpdateViolation sch values with
  | some k => .error (nullUpdateMsg k name)
  | none =>
      if values.isEmpty then .ok none
      else
        let setParts := values.map (fun p => quoteCol p.1 ++ " = ?")
        let setParams := values.map (fun p =>
          match lookupField sch p.1 with
          | some f => applyFormatIn f p.2
          | none => p.2)
        let wb := buildWhereClause sch w
        .ok (some ⟨"UPDATE \"" ++ name ++ "\" SET " ++ joinSep ", " setParts ++ wb.1,
                   setParams ++ wb.2⟩)

/-- rowSelected gives the engine's row-selection semantics for a
dispatched statement: an empty compiled clause means the statement has no
WHERE at all, so every row is selected; a nonempty clause selects the
rows the engine's predicate evaluator (abstracted as `oracle`) accepts.
Quantifying theorems over every oracle keeps them true for the real
engine regardless of predicate semantics. -/
def rowSelected (oracle : String → List Value → Row → Bool)
    (clause : String) (params : List Value) (r : Row) : Bool :=
  if clause = "" then true else oracle clause params r

/-- Delete embeds OptimaTB.Delete (src/src/table.ts lines 419-428) paired
with the engine semantics of the dispatched DELETE: selected rows are
removed. -/
def Delete (sch : Schema) (name : String) (w : Option WhereObj)
    (oracle : String → List Value → Row → Bool) (rows : List Row) :
    SqlCall × List Row :=
  let wb := buildWhereClause sch w
  (⟨"DELETE FROM \"" ++ name ++ "\"" ++ wb.1, wb.2⟩,
   rows.filter (fun r => !(rowSelected oracle wb.1 wb.2 r)))

/-- Count embeds OptimaTB.Count (src/src/table.ts lines 430-436) paired
with the engine semantics of COUNT(*): the number of selected rows. -/
def Count (sch : Schema) (name : String) (w : Option WhereObj)
    (oracle : String → List Value → Row → Bool) (rows : List Row) :
    SqlCall × Nat :=
  let wb := buildWhereClause sch w
  (⟨"SELECT COUNT(*) as count FROM \"" ++ name ++ "\"" ++ wb.1, wb.2⟩,
   (rows.filter (fun r => rowSelected oracle wb.1 wb.2 r)).length)

/-- mapOutRow embeds the mapOutRow helper (src/src/table.ts lines
439-452): outbound formatting per declared field, other keys passed
through. -/
def mapOutRow (sch : Schema) (r : Row) : Row :=
  r.map (fun p =>
    match lookupField sch p.1 with
    | some f => (p.1, applyFormatOut f p.2)
    | none => p)

/-- ExtendRel is one precomputed reverse relationship edge (the values of
the extendRelationships map built by InitTable). -/
structure ExtendRel where
  ExternalField : String
  InternalField : String
  rkind : RefKind

/-- lookupRel models `this.extendRelationships.get(e)` /
`.has(e)`. -/
def lookupRel (rels : List (String × ExtendRel)) (e : String) : Option ExtendRel :=
  (rels.find? (fun p => p.1 = e)).map Prod.snd

/-- apoChar is the apostrophe character (used by the relation error
message template of the source). -/
def apoChar : Char := Char.ofNat 39

/-- relErrMsg is the exact error template thrown by Get/GetOne for an
extend name with no recorded edge:
`Table ${Name} doesn't have a relation to the table ${e}`. -/
def relErrMsg (name e : String) : String :=
  "Table " ++ name ++ " doesn" ++ String.singleton apoChar ++
    "t have a relation to the table " ++ e

/-- attachRel models attaching the eagerly fetched sibling data to a row
under the `$`-prefixed key; the sibling fetch itself (a Get or GetOne on
the sibling table) is abstracted as `fetch`. -/
def attachRel (fetch : String → ExtendRel → Row → Value)
    (e : String) (rel : ExtendRel) (r : Row) : Row :=
  r ++ [("$" ++ e, fetch e rel r)]

/-- resolveExtends embeds the Extend loop of Get (src/src/table.ts lines
231-263): each requested name in order either has a recorded edge (rows
are mapped, attaching the fetched data) or the loop throws the relation
error — regardless of how many rows were fetched. -/
def resolveExtends (name : String) (rels : List (String × ExtendRel))
    (fetch : String → ExtendRel → Row → Value) :
    List String → List Row → Except String (List Row)
  | [], rows => .ok rows
  | e :: rest, rows =>
      match lookupRel rels e with
      | some rel => resolveExtends name rels fetch rest (rows.map (attachRel fetch e rel))
      | none => .error (relErrMsg name e)

/-- resolveExtendsOne embeds the Extend loop of GetOne (src/src/table.ts
lines 282-310) operating on the single fetched row. -/
def resolveExtendsOne (name : String) (rels : List (String × ExtendRel))
    (fetch : String → ExtendRel → Row → Value) :
    List String → Row → Except String Row
  | [], r => .ok r
  | e :: rest, r =>
      match lookupRel rels e with
      | some rel => resolveExtendsOne name rels fetch rest (attachRel fetch e rel r)
      | none => .error (relErrMsg name e)

/-- Get embeds OptimaTB.Get (src/src/table.ts lines 187-266) for the
default options (no Limit/Offset/OrderBy/Unique, which only reshape the
fetched row list and are orthogonal to every claim): rows selected by the
dispatched SELECT, outbound-mapped, then extend-resolved. -/
def Get (sch : Schema) (name : String) (rels : List (String × ExtendRel))
    (fetch : String → ExtendRel → Row → Value) (w : Option WhereObj)
    (ext : List String) (oracle : String → List Value → Row → Bool)
    (rows : List Row) : Except String (List Row) :=
  let wb := buildWhereClause sch w
  let fetched := rows.filter (fun r => rowSelected oracle wb.1 wb.2 r)
  resolveExtends name rels fetch ext (fetched.map (mapOutRow sch))

/-- GetOne embeds OptimaTB.GetOne (src/src/table.ts lines 268-313): the
first selected row is outbound-mapped; when NO row matched, the undefined
result is returned by the `if (!mappedRow) return mappedRow` early return
BEFORE any requested extend name is validated, so an unknown extend name
raises no error in that case. -/
def GetOne (sch : Schema) (name : String) (rels : List (String × ExtendRel))
    (fetch : String → ExtendRel → Row → Value) (w : Option WhereObj)
    (ext : List String) (oracle : String → List Value → Row → Bool)
    (rows : List Row) : Except String (Option Row) :=
  let wb := buildWhereClause sch w
  match (rows.filter (fun r => rowSelected oracle wb.1 wb.2 r)).head? with
  | none => .ok none
  | some r =>
      match resolveExtendsOne name rels fetch ext (mapOutRow sch r) with
      | .ok r2 => .ok (some r2)
      | .error msg => .error msg

/-- TableData is the physical shape of one live table: its column names
in order, and its rows, each aligned with the columns. -/
structure TableData where
  cols : List String
  rows : List (List Value)

/-- DBState is the committed database: table name → physical table (table
names are unique in sqlite_master, so a finite map is the natural
model). -/
abbrev DBState := String → Option TableData

/-- lookupTable reads one table of the database. -/
def lookupTable (db : DBState) (name : String) : Option TableData := db name

/-- tableExists embeds the sqlite_master existence query of MigrateSchema
(src/src/table.ts lines 658-663). -/
def tableExists (db : DBState) (name : String) : Bool := (db name).isSome

/-- getExistingColumns embeds the PRAGMA table_info introspection
(src/src/table.ts lines 664-684); the migration diff consumes only the
column names and the record count, so the model keeps the names. -/
def getExistingColumns (db : DBState) (name : String) : List String :=
  match db name with
  | some td => td.cols
  | none => []

/-- colIdx finds a column's position. -/
def colIdx (cols : List String) (c : String) : Option Nat :=
  cols.findIdx? (· = c)

/-- getCell reads the value a row holds for a named column (NULL when the
column is unknown, which no claim path reaches). -/
def getCell (cols : List String) (row : List Value) (c : String) : Value :=
  match colIdx cols c with
  | some i => row.getD i .vNull
  | none => .vNull

/-- sqEscapeApos doubles apostrophes, as `.replace(/'/g, "''")` does. -/
def sqEscapeApos (s : String) : String :=
  String.mk (s.data.flatMap (fun c => if c = apoChar then [apoChar, apoChar] else [c]))

/-- defaultLiteralForField embeds `defaultLiteralForField`
(src/src/table.ts lines 695-712): NULL without a default (the loose
`!= null` check covers null and undefined, i.e. the Option none of the
model), otherwise the inbound-formatted default rendered as a SQL
literal — numbers verbatim, booleans as 1/0, everything else quoted with
apostrophes doubled. -/
def defaultLiteralForField (f : OptimaField) : String :=
  match f.Default with
  | none => "NULL"
  | some d =>
      match applyFormatIn f d with
      | .vNull => "NULL"
      | .vUndef => "NULL"
      | .vNum q => numToString q
      | .vNaN => "NaN"
      | .vBool b => if b then "1" else "0"
      | v => String.singleton apoChar ++ sqEscapeApos (jsString v) ++ String.singleton apoChar

/-- litValue gives the SQLite evaluation of a literal produced by
defaultLiteralForField: NULL, a number, or a quoted string
(apostrophe-doubling undone). -/
def litValue (lit : String) : Value :=
  if lit = "NULL" then .vNull
  else
    match lit.data with
    | c :: rest =>
        if c = apoChar then .vStr (String.mk (unescapeSq (rest.dropLast)))
        else
          match parseNumFull lit with
          | some q => .vNum q
          | none => .vStr lit
    | [] => .vStr ""
where
  unescapeSq : List Char → List Char
    | [] => []
    | c1 :: c2 :: rest =>
        if c1 = apoChar ∧ c2 = apoChar then apoChar :: unescapeSq rest
        else c1 :: unescapeSq (c2 :: rest)
    | [c] => [c]

/-- SelectExpr is one expression of the rebuild's copy SELECT: a column
reference under its old name, or a computed default literal aliased to
the new name. -/
inductive SelectExpr where
  | colRef (old : String)
  | defaultLit (lit : String)

/-- evalExpr evaluates a copy-SELECT expression against a source row. -/
def evalExpr (srcCols : List String) (row : List Value) : SelectExpr → Value
  | .colRef c => getCell srcCols row c
  | .defaultLit lit => litValue lit

/-- SqlStmt is one statement the migration engine can issue.  createTable
keeps the semantic content of the generated DDL that the claims consume
(which columns exist); constraint clauses ride along in the DDL text but
are invisible to the migration diff and to row contents. -/
inductive SqlStmt where
  | beginTxn
  | commitTxn
  | rollbackTxn
  | pragmaFk (fkon : Bool)
  | createTable (tname : String) (cols : List String)
  | insertSelect (dest : String) (destCols : List String) (exprs : List SelectExpr) (src : String)
  | dropTable (tname : String)
  | renameTable (oldName newName : String)

/-- isDDL marks the CREATE/DROP/ALTER statements. -/
def isDDL : SqlStmt → Bool
  | .createTable _ _ => true
  | .dropTable _ => true
  | .renameTable _ _ => true
  | _ => false

/-- applyStmtDB gives the database effect of one non-transactional
statement. -/
def applyStmtDB (s : SqlStmt) (db : DBState) : DBState :=
  match s with
  | .createTable n cols => fun m => if m = n then some ⟨cols, []⟩ else db m
  | .dropTable n => fun m => if m = n then none else db m
  | .renameTable o n => fun m => if m = n then db o else if m = o then none else db m
  | .insertSelect dest destCols exprs src =>
      (match db src with
       | none => db
       | some srcTd =>
           let produced := srcTd.rows.map (fun r => exprs.map (evalExpr srcTd.cols r))
           fun m =>
             if m = dest then
               match db dest with
               | some destTd =>
                   some ⟨destTd.cols,
                     destTd.rows ++ produced.map (fun vals =>
                       destTd.cols.map (fun c => getCell destCols vals c))⟩
               | none => none
             else db m)
  | _ => db

/-- Conn is the storage-engine connection: the committed database, the
open transaction's working copy (none outside a transaction), and the
foreign_keys pragma, which is connection state and NOT rolled back with
the transaction — which is exactly why the catch block re-enables it
explicitly. -/
structure Conn where
  committed : DBState
  txn : Option DBState
  fkOn : Bool

/-- execStmt runs one statement on the connection: BEGIN snapshots the
committed state, COMMIT publishes the working copy, ROLLBACK discards it,
PRAGMA mutates connection state immediately, and data statements apply to
the working copy inside a transaction (or directly otherwise). -/
def execStmt (c : Conn) (s : SqlStmt) : Conn :=
  match s with
  | .beginTxn => { c with txn := some c.committed }
  | .commitTxn => { committed := c.txn.getD c.committed, txn := none, fkOn := c.fkOn }
  | .rollbackTxn => { c with txn := none }
  | .pragmaFk b => { c with fkOn := b }
  | s =>
      match c.txn with
      | some db => { c with txn := some (applyStmtDB s db) }
      | none => { c with committed := applyStmtDB s c.committed }

/-- runTry executes the statements of the try block in order, with a
fault-injection point: when `failAt` equals the current index the
statement throws (before taking effect) and execution stops with that
error.  Returns the final connection, the executed prefix, and the
raised error. -/
def runTry (c : Conn) : List SqlStmt → Nat → Option Nat → Conn × List SqlStmt × Option Nat
  | [], _, _ => (c, [], none)
  | s :: rest, idx, failAt =>
      if failAt = some idx then (c, [], some idx)
      else
        let c2 := execStmt c s
        let r := runTry c2 rest (idx + 1) failAt
        (r.1, s :: r.2.1, r.2.2)

/-- lookupStr models `Map.get` on the rename maps. -/
def lookupStr (m : List (String × String)) (k : String) : Option String :=
  (m.find? (fun p => p.1 = k)).map Prod.snd

/-- migrationSelectExprs builds the copy mapping of the REBUILD
(src/src/table.ts lines 769-782): each declared column selects its old
name when a rename maps to it or it already exists, else the computed
default literal. -/
def migrationSelectExprs (sch : Schema) (existing : List String)
    (newToOld : List (String × String)) : List SelectExpr :=
  (sch.map Prod.fst).map (fun newCol =>
    let mappedOld := (lookupStr newToOld newCol).getD newCol
    if existing.contains mappedOld then SelectExpr.colRef mappedOld
    else
      SelectExpr.defaultLit (defaultLiteralForField
        ((lookupField sch newCol).getD (fieldOf .Text))))

/-- migrationTrySteps is the statement sequence inside the try block of
the REBUILD (src/src/table.ts lines 762-799): suspend foreign keys,
create the temp table from the declared schema, copy all rows when the
old table had any columns, drop the old table, rename the temp into
place, re-enable foreign keys, commit. -/
def migrationTrySteps (sch : Schema) (name : String)
    (renameColumns : List (String × String)) (db : DBState) : List SqlStmt :=
  let existing := getExistingColumns db name
  let desired := sch.map Prod.fst
  let newToOld := renameColumns.map (fun p => (p.2, p.1))
  let tempName := "__tmp__" ++ name
  [SqlStmt.pragmaFk false, SqlStmt.createTable tempName desired] ++
    (if existing.length > 0 then
      [SqlStmt.insertSelect tempName desired
        (migrationSelectExprs sch existing newToOld) name]
    else []) ++
    [SqlStmt.dropTable name, SqlStmt.renameTable tempName name,
     SqlStmt.pragmaFk true, SqlStmt.commitTxn]

/-- MigResult is the outcome of a MigrateSchema call: the connection, the
executed statement trace, and the re-raised error (the fault-injection
index), none on success. -/
structure MigResult where
  conn : Conn
  trace : List SqlStmt
  err : Option Nat

/-- MigrateSchema embeds `MigrateSchema` of src/src/table.ts (lines
713-809; the MigrateSchema method of src/src/database.ts lines 986-1068
is line-for-line the same algorithm).  A missing table is created and
nothing else happens.  Otherwise the declared column set is diffed
against the physical one modulo the rename map — and then
`requiresRebuild = requiresRebuild || true` (line 755; kept deliberately
per the adjacent comments) forces the rebuild regardless.  The rebuild
runs BEGIN, then the try steps; any step throwing triggers the catch:
ROLLBACK, re-enable foreign keys, re-raise. -/
def MigrateSchema (sch : Schema) (name : String)
    (renameColumns : List (String × String)) (conn : Conn)
    (failAt : Option Nat) : MigResult :=
  let existing := getExistingColumns conn.committed name
  let desired := sch.map Prod.fst
  if tableExists conn.committed name = false then
    let st := SqlStmt.createTable name desired
    { conn := execStmt conn st, trace := [st], err := none }
  else
    let oldToNew := renameColumns
    let normalizedExisting := existing.map (fun n => (lookupStr oldToNew n).getD n)
    let requiresRebuild0 :=
      desired.any (fun n => !(normalizedExisting.contains n)) ||
      normalizedExisting.any (fun n => !(desired.contains n))
    let requiresRebuild := requiresRebuild0 || true
    if requiresRebuild = false then { conn := conn, trace := [], err := none }
    else
      let steps := migrationTrySteps sch name renameColumns conn.committed
      let c1 := execStmt conn .beginTxn
      let r := runTry c1 steps 0 failAt
      match r.2.2 with
      | none => { conn := r.1, trace := SqlStmt.beginTxn :: r.2.1, err := none }
      | some i =>
          let c3 := execStmt (execStmt r.1 .rollbackTxn) (.pragmaFk true)
          { conn := c3,
            trace := SqlStmt.beginTxn :: r.2.1 ++ [SqlStmt.rollbackTxn, SqlStmt.pragmaFk true],
            err := some i }

/-
Claim theorems.  Shared concrete fixtures first.
-/

/-- fnnInt is an Int column declared notNull (used by several fixtures). -/
def fnnInt : OptimaField := { fieldOf .Int with NotNull := true }

/-- demoSchema is a two-column fixture schema. -/
def demoSchema : Schema := [("A", fieldOf .Int), ("B", fieldOf .Text)]

/-- c7Field is an Int column carrying a custom check option. -/
def c7Field : OptimaField := { fieldOf .Int with Check := some "value > 0" }

/-- C3: for every schema and column name, compiling the filter
{col: {$in: []}} yields exactly the unsatisfiable predicate `1 = 0` with
an empty parameter list, and {col: {$nin: []}} yields the tautology
`1 = 1` with an empty parameter list (src/src/table.ts lines 530-551). -/
theorem c3_empty_in_nin_edge_cases (sch : Schema) (col : String) :
    (buildWhereClause sch (some (.mk [.wCol col (.wOps [("$in", .oList [])])]))).1 =
      " WHERE 1 = 0" ∧
    (buildWhereClause sch (some (.mk [.wCol col (.wOps [("$in", .oList [])])]))).2 = [] ∧
    (buildWhereClause sch (some (.mk [.wCol col (.wOps [("$nin", .oList [])])]))).1 =
      " WHERE 1 = 1" ∧
    (buildWhereClause sch (some (.mk [.wCol col (.wOps [("$nin", .oList [])])]))).2 = [] :=
  ⟨rfl, rfl, rfl, rfl⟩

/-- C4: for every filter expression of the compiler's input surface, the
number of `?` placeholders in the compiled predicate equals the length of
the returned parameter array.  The parameters are emitted fragment by
fragment in the same left-to-right depth-first order as the predicate
fragments themselves (compileObjPair joins the fragment texts and
concatenates the per-fragment parameter lists in one pass), which is what
makes the per-fragment count argument compose.  The hypothesis rules out
column names that themselves contain a `?` character, which would be
miscounted as placeholders. -/
theorem c4_placeholder_param_alignment (sch : Schema) (o : WhereObj)
    (h : objColsOk o = true) :
    qcount (buildWhereClause sch (some o)).1 = (buildWhereClause sch (some o)).2.length := by
  match o with
  | .mk [] => rfl
  | .mk (e :: rest) =>
      rw [buildWhereClause]
      · split
        · decide
        · have hp := compileObjPair_ok sch (.mk (e :: rest)) h
          simp [qcount_append, q_wherekw, hp]
      · intro hx
        injection hx with hx2
        exact List.cons_ne_nil e rest hx2

/-- Witness for C4 at a nested concrete filter. -/
theorem c4_placeholder_param_alignment_witness :
    objColsOk (.mk [.wCol "A" (.wOps [("$gt", .oScalar (vNum 3)), ("$in", .oList [vNum 1, vNum 2])]),
      .logical true [.mk [.wCol "B" (.wScalar (vStr "x"))], .mk [.wCol "A" .wNull]]]) = true ∧
    qcount (buildWhereClause demoSchema (some (.mk [.wCol "A" (.wOps [("$gt", .oScalar (vNum 3)), ("$in", .oList [vNum 1, vNum 2])]),
      .logical true [.mk [.wCol "B" (.wScalar (vStr "x"))], .mk [.wCol "A" .wNull]]]))).1 =
    (buildWhereClause demoSchema (some (.mk [.wCol "A" (.wOps [("$gt", .oScalar (vNum 3)), ("$in", .oList [vNum 1, vNum 2])]),
      .logical true [.mk [.wCol "B" (.wScalar (vStr "x"))], .mk [.wCol "A" .wNull]]]))).2.length :=
  ⟨rfl, c4_placeholder_param_alignment demoSchema _ rfl⟩

/-- Violates says the insert values omit the column or supply
null/undefined for it — the NOT NULL runtime check of Insert. -/
def Violates (values : Row) (k : String) : Prop :=
  hasOwn values k = false ∨ nullishVal (lookupRow values k) = true

/-- notNullViolation finds a violating NOT NULL column whenever one
exists (specifically the first one in schema order). -/
theorem notNullViolation_of_exists (values : Row) :
    ∀ (sch : Schema), (∃ key f, (key, f) ∈ sch ∧ f.NotNull = true ∧ Violates values key) →
      ∃ k2 f2 b, (k2, f2) ∈ sch ∧ f2.NotNull = true ∧ Violates values k2 ∧
        notNullViolation values sch = some (k2, b)
  | [], ⟨key, f, hmem, _, _⟩ => absurd hmem (List.not_mem_nil _)
  | (k0, f0) :: rest, ⟨key, f, hmem, hnn, hviol⟩ => by
      rw [notNullViolation]
      by_cases h0 : f0.NotNull
      · simp only [h0, if_true]
        by_cases h1 : hasOwn values k0 = false
        · exact ⟨k0, f0, true, List.mem_cons_self _ _, h0, Or.inl h1, by simp [h1]⟩
        · by_cases h2 : nullishVal (lookupRow values k0) = true
          · exact ⟨k0, f0, false, List.mem_cons_self _ _, h0, Or.inr h2, by simp [h1, h2]⟩
          · have hrest : ∃ key f, (key, f) ∈ rest ∧ f.NotNull = true ∧ Violates values key := by
              rcases List.mem_cons.mp hmem with heq | hmemr
              · exfalso
                injection heq with hk hf
                subst hk
                rcases hviol with hv | hv
                · exact h1 hv
                · exact h2 hv
              · exact ⟨key, f, hmemr, hnn, hviol⟩
            obtain ⟨k2, f2, b, hm2, hn2, hv2, heq2⟩ := notNullViolation_of_exists values rest hrest
            exact ⟨k2, f2, b, List.mem_cons_of_mem _ hm2, hn2, hv2, by simp [h1, h2, heq2]⟩
      · have hrest : ∃ key f, (key, f) ∈ rest ∧ f.NotNull = true ∧ Violates values key := by
          rcases List.mem_cons.mp hmem with heq | hmemr
          · exfalso
            injection heq with hk hf
            subst hf
            exact h0 hnn
          · exact ⟨key, f, hmemr, hnn, hviol⟩
        obtain ⟨k2, f2, b, hm2, hn2, hv2, heq2⟩ := notNullViolation_of_exists values rest hrest
        exact ⟨k2, f2, b, List.mem_cons_of_mem _ hm2, hn2, hv2, by simp [h0, heq2]⟩

/-- C5: if any declared NOT NULL column is omitted from the insert
values, or supplied as null or undefined, Insert returns an error before
any SQL is prepared (the Except short-circuits before the INSERT text and
parameters are even assembled, so nothing reaches the engine and the row
set is unchanged), and the message is one of the two templates naming a
violating field and the table.  When several NOT NULL columns are
violated simultaneously the loop reports the first in schema order, which
is why the reported field is existential. -/
theorem c5_insert_notnull_rejected (sch : Schema) (name : String) (values : Row)
    (rows : List Row) (key : String) (f : OptimaField)
    (hmem : (key, f) ∈ sch) (hnn : f.NotNull = true) (hviol : Violates values key) :
    ∃ k2 f2 msg, (k2, f2) ∈ sch ∧ f2.NotNull = true ∧ Violates values k2 ∧
      Insert sch name values rows = .error msg ∧
      (msg = missingFieldMsg k2 name ∨ msg = nullFieldMsg k2 name) := by
  obtain ⟨k2, f2, b, hm2, hn2, hv2, heq⟩ :=
    notNullViolation_of_exists values sch ⟨key, f, hmem, hnn, hviol⟩
  cases b
  · exact ⟨k2, f2, nullFieldMsg k2 name, hm2, hn2, hv2, by simp [Insert, heq], Or.inr rfl⟩
  · exact ⟨k2, f2, missingFieldMsg k2 name, hm2, hn2, hv2, by simp [Insert, heq], Or.inl rfl⟩

/-- Witness for C5: inserting an empty row into a table whose column A is
NOT NULL. -/
theorem c5_insert_notnull_rejected_witness :
    (("A", fnnInt) ∈ [("A", fnnInt)]) ∧ fnnInt.NotNull = true ∧ Violates [] "A" ∧
    ∃ k2 f2 msg, (k2, f2) ∈ [("A", fnnInt)] ∧ f2.NotNull = true ∧ Violates [] k2 ∧
      Insert [("A", fnnInt)] "T" [] [] = .error msg ∧
      (msg = missingFieldMsg k2 "T" ∨ msg = nullFieldMsg k2 "T") :=
  ⟨List.mem_singleton.mpr rfl, rfl, Or.inl rfl,
   c5_insert_notnull_rejected [("A", fnnInt)] "T" [] [] "A" fnnInt
     (List.mem_singleton.mpr rfl) rfl (Or.inl rfl)⟩

/-- C6 (code bug): Update is supposed to block an explicit null into a
NOT NULL column ("For updates, if a NOT NULL field is explicitly set to
null, block it", src/src/table.ts line 378), but its guard calls
`field?.isNotNullField?.()` and the OptimaField class of src/src/schema.ts
declares no such method (isNotNullFieldMember), so the optional call is
undefined, the guard never fires, and the parameterized UPDATE placing
NULL into the NOT NULL column is dispatched to the engine instead of a
SchemaViolation being raised with no SQL executed. -/
theorem c6_update_null_guard_never_fires :
    updateGuardFires fnnInt .vNull = false ∧
    Update [("A", fnnInt)] "T" [("A", .vNull)] none =
      .ok (some ⟨"UPDATE \"T\" SET \"A\" = ?", [.vNull]⟩) :=
  ⟨rfl, rfl⟩

/-- C7 counterexample: the value "hi" fails the declared Int type (its
TypeChecker returns false) and the field carries a custom check option,
yet Insert raises no error — it formats the value (Number("hi") is NaN)
and dispatches the INSERT.  This refutes the claim that Insert runs the
custom validator and declared-type check and errors before SQL. -/
theorem c7_insert_skips_validation_counterexample :
    TypeChecker (.vStr "hi") .Int = false ∧
    c7Field.Check = some "value > 0" ∧
    Insert [("A", c7Field)] "T" [("A", .vStr "hi")] [] =
      .ok (⟨"INSERT INTO \"T\" (\"A\") VALUES (?)", [.vNaN]⟩, [[("A", .vNaN)]]) :=
  ⟨rfl, rfl, rfl⟩

/-- C7 amended: Insert's only runtime validation is the NOT NULL presence
check; neither TypeChecker (exported but never called) nor the field's
check option (emitted as a DDL CHECK clause, enforced engine-side) runs
in Insert, so whenever no NOT NULL violation exists the insert is
dispatched regardless of the value's type or check predicate. -/
theorem c7_insert_validates_only_notnull (sch : Schema) (name : String)
    (values : Row) (rows : List Row) (h : notNullViolation values sch = none) :
    ∃ call rows2, Insert sch name values rows = .ok (call, rows2) := by
  unfold Insert
  rw [h]
  exact ⟨_, _, rfl⟩

/-- Witness for C7 at the fixture with a failing type and check. -/
theorem c7_insert_validates_only_notnull_witness :
    notNullViolation [("A", .vStr "hi")] [("A", c7Field)] = none ∧
    ∃ call rows2, Insert [("A", c7Field)] "T" [("A", .vStr "hi")] [] = .ok (call, rows2) :=
  ⟨rfl, c7_insert_validates_only_notnull [("A", c7Field)] "T" [("A", .vStr "hi")] [] rfl⟩

/-- C8: for every semantic field type, the outbound formatter inverts the
inbound formatter at the representative values of the claim — a Json
object, an Array of numbers, a DateTime (value equality of the Date's
time value), every Boolean, and every UUID string (the UUID branch of
both formatters is the identity). -/
theorem c8_format_roundtrip_representatives :
    applyFormatOut (fieldOf .Json) (applyFormatIn (fieldOf .Json)
      (.vObj [("X", .vNum 123), ("Y", .vNum 1234)])) = .vObj [("X", .vNum 123), ("Y", .vNum 1234)] ∧
    applyFormatOut (fieldOf .Array) (applyFormatIn (fieldOf .Array)
      (.vArr [.vNum 1, .vNum 2, .vNum 3])) = .vArr [.vNum 1, .vNum 2, .vNum 3] ∧
    applyFormatOut (fieldOf .DateTime) (applyFormatIn (fieldOf .DateTime)
      (.vDate 1700000000123)) = .vDate 1700000000123 ∧
    (∀ b : Bool, applyFormatOut (fieldOf .Boolean)
      (applyFormatIn (fieldOf .Boolean) (.vBool b)) = .vBool b) ∧
    (∀ s : String, applyFormatOut (fieldOf .UUID)
      (applyFormatIn (fieldOf .UUID) (.vStr s)) = .vStr s) :=
  ⟨rfl, rfl, rfl, fun b => by cases b <;> rfl, fun _ => rfl⟩

/-- resolveExtends errors on the first requested extend name without a
recorded edge whenever any requested name lacks one. -/
theorem resolveExtends_missing (name : String) (rels : List (String × ExtendRel))
    (fetch : String → ExtendRel → Row → Value) :
    ∀ (ext : List String) (rows : List Row) (e : String),
      e ∈ ext → lookupRel rels e = none →
      ∃ e2, e2 ∈ ext ∧ lookupRel rels e2 = none ∧
        resolveExtends name rels fetch ext rows = .error (relErrMsg name e2)
  | [], _, e, hmem, _ => absurd hmem (List.not_mem_nil _)
  | x :: rest, rows, e, hmem, hmiss => by
      rw [resolveExtends]
      cases hx : lookupRel rels x with
      | none => exact ⟨x, List.mem_cons_self _ _, hx, rfl⟩
      | some rel =>
          have hne : e ≠ x := fun heq => by
            subst heq
            rw [hmiss] at hx
            cases hx
          have hmemr : e ∈ rest := by
            rcases List.mem_cons.mp hmem with heq | hr
            · exact absurd heq hne
            · exact hr
          obtain ⟨e2, hm2, hx2, heq2⟩ :=
            resolveExtends_missing name rels fetch rest
              (rows.map (attachRel fetch x rel)) e hmemr hmiss
          exact ⟨e2, List.mem_cons_of_mem _ hm2, hx2, heq2⟩

/-- resolveExtendsOne errors on the first requested extend name without a
recorded edge whenever any requested name lacks one. -/
theorem resolveExtendsOne_missing (name : String) (rels : List (String × ExtendRel))
    (fetch : String → ExtendRel → Row → Value) :
    ∀ (ext : List String) (r : Row) (e : String),
      e ∈ ext → lookupRel rels e = none →
      ∃ e2, e2 ∈ ext ∧ lookupRel rels e2 = none ∧
        resolveExtendsOne name rels fetch ext r = .error (relErrMsg name e2)
  | [], _, e, hmem, _ => absurd hmem (List.not_mem_nil _)
  | x :: rest, r, e, hmem, hmiss => by
      rw [resolveExtendsOne]
      cases hx : lookupRel rels x with
      | none => exact ⟨x, List.mem_cons_self _ _, hx, rfl⟩
      | some rel =>
          have hne : e ≠ x := fun heq => by
            subst heq
            rw [hmiss] at hx
            cases hx
          have hmemr : e ∈ rest := by
            rcases List.mem_cons.mp hmem with heq | hr
            · exact absurd heq hne
            · exact hr
          obtain ⟨e2, hm2, hx2, heq2⟩ :=
            resolveExtendsOne_missing name rels fetch rest
              (attachRel fetch x rel r) e hmemr hmiss
          exact ⟨e2, List.mem_cons_of_mem _ hm2, hx2, heq2⟩

/-- C9 counterexample: GetOne with an unknown extend name returns
undefined silently — not an error — whenever no row matches, because the
`if (!mappedRow) return mappedRow` early return precedes the extend
validation (src/src/table.ts line 280).  This refutes the claim for
GetOne. -/
theorem c9_getone_silent_counterexample :
    GetOne [("A", fieldOf .Int)] "T" [] (fun _ _ _ => .vNull) none ["Missing"]
      (fun _ _ _ => true) [] = .ok none :=
  rfl

/-- C9 amended: requesting an extend name with no recorded edge makes Get
throw the relation error naming the owning table and the (first) missing
relation, regardless of how many rows matched; GetOne throws the same
error provided some row matched the filter — when none did, it returns
undefined without validating the extend names. -/
theorem c9_unknown_extend_errors (sch : Schema) (name : String)
    (rels : List (String × ExtendRel)) (fetch : String → ExtendRel → Row → Value)
    (w : Option WhereObj) (ext : List String)
    (oracle : String → List Value → Row → Bool) (rows : List Row)
    (e : String) (hmem : e ∈ ext) (hmiss : lookupRel rels e = none) :
    (∃ e2, e2 ∈ ext ∧ lookupRel rels e2 = none ∧
      Get sch name rels fetch w ext oracle rows = .error (relErrMsg name e2)) ∧
    (∀ r0, (rows.filter (fun r => rowSelected oracle (buildWhereClause sch w).1
        (buildWhereClause sch w).2 r)).head? = some r0 →
      ∃ e2, e2 ∈ ext ∧ lookupRel rels e2 = none ∧
        GetOne sch name rels fetch w ext oracle rows = .error (relErrMsg name e2)) := by
  constructor
  · obtain ⟨e2, hm2, hx2, heq2⟩ := resolveExtends_missing name rels fetch ext
      (((rows.filter (fun r => rowSelected oracle (buildWhereClause sch w).1
        (buildWhereClause sch w).2 r)).map (mapOutRow sch))) e hmem hmiss
    exact ⟨e2, hm2, hx2, by simpa [Get] using heq2⟩
  · intro r0 hr0
    obtain ⟨e2, hm2, hx2, heq2⟩ := resolveExtendsOne_missing name rels fetch ext
      (mapOutRow sch r0) e hmem hmiss
    refine ⟨e2, hm2, hx2, ?_⟩
    rw [GetOne]
    rw [hr0]
    simp [heq2]

/-- Witness for C9 on a single-row table with an unknown extend. -/
theorem c9_unknown_extend_errors_witness :
    ("Missing" ∈ ["Missing"]) ∧ lookupRel [] "Missing" = none ∧
    ((∃ e2, e2 ∈ ["Missing"] ∧ lookupRel ([] : List (String × ExtendRel)) e2 = none ∧
      Get demoSchema "T" [] (fun _ _ _ => .vNull) none ["Missing"]
        (fun _ _ _ => true) [[("A", .vNum 1)]] = .error (relErrMsg "T" e2)) ∧
     (∀ r0, ([[("A", .vNum 1)]].filter (fun r =>
         rowSelected (fun _ _ _ => true) (buildWhereClause demoSchema none).1
           (buildWhereClause demoSchema none).2 r)).head? = some r0 →
       ∃ e2, e2 ∈ ["Missing"] ∧ lookupRel ([] : List (String × ExtendRel)) e2 = none ∧
         GetOne demoSchema "T" [] (fun _ _ _ => .vNull) none ["Missing"]
           (fun _ _ _ => true) [[("A", .vNum 1)]] = .error (relErrMsg "T" e2))) :=
  ⟨List.mem_singleton.mpr rfl, rfl,
   c9_unknown_extend_errors demoSchema "T" [] (fun _ _ _ => .vNull) none ["Missing"]
     (fun _ _ _ => true) [[("A", .vNum 1)]] "Missing" (List.mem_singleton.mpr rfl) rfl⟩

/-- C10: with the where argument absent/undefined or an empty object, the
shared clause builder (used by Get, Delete, Update and Count alike)
returns an empty clause and empty parameter list, so the dispatched
statement has no WHERE at all and applies to every row: Delete removes
all rows and Count counts all rows, for every engine predicate
semantics. -/
theorem c10_empty_where_applies_to_all (sch : Schema) (name : String)
    (oracle : String → List Value → Row → Bool) (rows : List Row) :
    buildWhereClause sch none = ("", []) ∧
    buildWhereClause sch (some (.mk [])) = ("", []) ∧
    (Delete sch name none oracle rows).2 = [] ∧
    (Delete sch name (some (.mk [])) oracle rows).2 = [] ∧
    (Delete sch name none oracle rows).1.sql = "DELETE FROM \"" ++ name ++ "\"" ∧
    (Delete sch name none oracle rows).1.params = [] ∧
    (Count sch name none oracle rows).2 = rows.length := by
  refine ⟨rfl, rfl, ?_, ?_, ?_, rfl, ?_⟩
  · simp [Delete, buildWhereClause, rowSelected]
  · simp [Delete, buildWhereClause, rowSelected]
  · simp [Delete, buildWhereClause]
  · simp [Count, buildWhereClause, rowSelected]

/-
Migration lemmas shared by the C1 and C2 claims.
-/

/-- execStmt keeps the committed database and the open transaction across
any statement other than COMMIT and ROLLBACK. -/
theorem execStmt_keeps (c : Conn) (s : SqlStmt) (h1 : s ≠ SqlStmt.commitTxn)
    (h2 : s ≠ SqlStmt.rollbackTxn) (ht : c.txn.isSome = true) :
    (execStmt c s).committed = c.committed ∧ (execStmt c s).txn.isSome = true := by
  obtain ⟨db, hdb⟩ := Option.isSome_iff_exists.mp ht
  cases s <;> simp_all [execStmt]

/-- Inside a transaction, a try block that throws before reaching any
COMMIT or ROLLBACK leaves the committed database untouched and reports
the injected error. -/
theorem runTry_fail :
    ∀ (steps : List SqlStmt) (c : Conn) (idx i : Nat), idx ≤ i → i < idx + steps.length →
      (∀ j (hj : j < steps.length), idx + j < i →
        steps.get ⟨j, hj⟩ ≠ SqlStmt.commitTxn ∧ steps.get ⟨j, hj⟩ ≠ SqlStmt.rollbackTxn) →
      c.txn.isSome = true →
      (runTry c steps idx (some i)).2.2 = some i ∧
      (runTry c steps idx (some i)).1.committed = c.committed
  | [], c, idx, i, hle, hlt, _, _ => by simp at hlt; omega
  | s :: rest, c, idx, i, hle, hlt, hcr, ht => by
      rw [runTry]
      by_cases hidx : i = idx
      · subst hidx
        simp
      · rw [if_neg (by simp [Ne, hidx])]
        have hs := hcr 0 (by simp) (by omega)
        simp only [List.get] at hs
        have hk := execStmt_keeps c s hs.1 hs.2 ht
        have hlt2 : i < (idx + 1) + rest.length := by
          simp only [List.length_cons] at hlt
          omega
        have hih := runTry_fail rest (execStmt c s) (idx + 1) i (by omega) hlt2
          (fun j hj hji => by
            have := hcr (j + 1) (by simpa using Nat.succ_lt_succ hj) (by omega)
            simpa using this)
          hk.2
        exact ⟨hih.1, hih.2.trans hk.1⟩

/-- Every statement of the migration try block other than the final
COMMIT is neither a COMMIT nor a ROLLBACK. -/
theorem migrationTrySteps_noCR (sch : Schema) (name : String)
    (rc : List (String × String)) (db : DBState) :
    ∀ j (hj : j < (migrationTrySteps sch name rc db).length),
      j + 1 < (migrationTrySteps sch name rc db).length →
      (migrationTrySteps sch name rc db).get ⟨j, hj⟩ ≠ SqlStmt.commitTxn ∧
      (migrationTrySteps sch name rc db).get ⟨j, hj⟩ ≠ SqlStmt.rollbackTxn := by
  intro j hj hj1
  by_cases hc : (getExistingColumns db name).length > 0
  · simp only [migrationTrySteps, hc, if_true, List.cons_append, List.nil_append,
      List.length_cons, List.length_nil] at hj hj1 ⊢
    interval_cases j <;> simp [hc] <;> omega
  · simp only [migrationTrySteps, hc, if_false, List.cons_append, List.nil_append,
      List.length_cons, List.length_nil] at hj hj1 ⊢
    interval_cases j <;> simp [hc] <;> omega

/-- runTry with no injected fault executes every statement and raises
nothing. -/
theorem runTry_none :
    ∀ (steps : List SqlStmt) (c : Conn) (idx : Nat),
      runTry c steps idx none = (steps.foldl execStmt c, steps, none)
  | [], _, _ => rfl
  | s :: rest, c, idx => by
      rw [runTry]
      simp [runTry_none rest (execStmt c s) (idx + 1)]

/-- Reading the column the head position names gives the head value. -/
theorem getCell_cons_self (c : String) (cs : List String) (v : Value) (vs : List Value) :
    getCell (c :: cs) (v :: vs) c = v := by
  simp [getCell, colIdx, List.findIdx?_cons]

/-- Reading another column skips the head position. -/
theorem getCell_cons_ne (c c2 : String) (cs : List String) (v : Value) (vs : List Value)
    (h : c2 ≠ c) : getCell (c :: cs) (v :: vs) c2 = getCell cs vs c2 := by
  simp only [getCell, colIdx, List.findIdx?_cons]
  rw [if_neg (by simpa using Ne.symm h)]
  cases hfi : List.findIdx? (fun x => decide (x = c2)) cs with
  | none => simp [hfi]
  | some i => simp [hfi]

/-- Projecting a row onto its own duplicate-free column list reproduces
the row. -/
theorem map_getCell_self :
    ∀ (cols : List String) (r : List Value), cols.Nodup → r.length = cols.length →
      cols.map (fun c => getCell cols r c) = r
  | [], [], _, _ => rfl
  | [], v :: vs, _, h => by simp at h
  | c :: cs, [], _, h => by simp at h
  | c :: cs, v :: vs, hnd, hlen => by
      obtain ⟨hni, hnd2⟩ := List.nodup_cons.mp hnd
      simp only [List.map_cons, getCell_cons_self]
      congr 1
      have hcg : ∀ x ∈ cs, getCell (c :: cs) (v :: vs) x = getCell cs vs x := fun x hx =>
        getCell_cons_ne c x cs v vs (fun he => hni (he ▸ hx))
      rw [List.map_congr_left hcg]
      exact map_getCell_self cs vs hnd2 (by simpa using hlen)

/-- With no renames and a physical column list equal to the declared one,
every copy expression is a plain column reference. -/
theorem migrationSelectExprs_matching (sch : Schema) :
    migrationSelectExprs sch (sch.map Prod.fst) [] =
      (sch.map Prod.fst).map SelectExpr.colRef := by
  unfold migrationSelectExprs
  apply List.map_congr_left
  intro c hc
  simp [lookupStr, List.find?]
  obtain ⟨p, hp, hpc⟩ := List.mem_map.mp hc
  exact ⟨p.2, by rw [← hpc]; simpa using hp⟩

/-- Running the seven-statement rebuild inside a transaction over a table
whose physical columns equal the declared ones republishes exactly the
same table and touches no other table. -/
theorem rebuildChain (D : DBState) (fk : Bool) (name temp : String) (cols : List String)
    (rows : List (List Value))
    (hD : D name = some ⟨cols, rows⟩)
    (htemp : name ≠ temp)
    (hnd : cols.Nodup) (hlen : ∀ r ∈ rows, r.length = cols.length) :
    ([SqlStmt.pragmaFk false, SqlStmt.createTable temp cols,
      SqlStmt.insertSelect temp cols (cols.map SelectExpr.colRef) name,
      SqlStmt.dropTable name, SqlStmt.renameTable temp name,
      SqlStmt.pragmaFk true, SqlStmt.commitTxn].foldl execStmt
        (⟨D, some D, fk⟩ : Conn)).committed name = some ⟨cols, rows⟩ ∧
    (∀ m, m ≠ name → m ≠ temp →
      ([SqlStmt.pragmaFk false, SqlStmt.createTable temp cols,
        SqlStmt.insertSelect temp cols (cols.map SelectExpr.colRef) name,
        SqlStmt.dropTable name, SqlStmt.renameTable temp name,
        SqlStmt.pragmaFk true, SqlStmt.commitTxn].foldl execStmt
          (⟨D, some D, fk⟩ : Conn)).committed m = D m) ∧
    ([SqlStmt.pragmaFk false, SqlStmt.createTable temp cols,
      SqlStmt.insertSelect temp cols (cols.map SelectExpr.colRef) name,
      SqlStmt.dropTable name, SqlStmt.renameTable temp name,
      SqlStmt.pragmaFk true, SqlStmt.commitTxn].foldl execStmt
        (⟨D, some D, fk⟩ : Conn)).txn = none := by
  have htn : temp ≠ name := Ne.symm htemp
  simp only [List.foldl_cons, List.foldl_nil, execStmt]
  refine ⟨?_, ?_, trivial⟩
  · simp only [Option.getD_some]
    simp [applyStmtDB, htemp, htn, hD]
    have hcg : ∀ r ∈ rows,
        ((fun vals => List.map (fun c => getCell cols vals c) cols) ∘ fun r =>
          List.map (evalExpr cols r ∘ SelectExpr.colRef) cols) r = id r := by
      intro r hr
      have h1 : List.map (evalExpr cols r ∘ SelectExpr.colRef) cols = r :=
        map_getCell_self cols r hnd (hlen r hr)
      simp only [Function.comp_apply, h1, id_eq]
      exact map_getCell_self cols r hnd (hlen r hr)
    rw [List.map_congr_left hcg, List.map_id]
  · intro m hm1 hm2
    simp only [Option.getD_some]
    simp [applyStmtDB, htemp, htn, hD, hm1, hm2]

/-- migDemoDB is a one-table database fixture: table T with column A and
one row. -/
def migDemoDB : DBState :=
  fun m => if m = "T" then some ⟨["A"], [[Value.vNum 1]]⟩ else none

/-- migDemoConn is a connection on migDemoDB outside any transaction. -/
def migDemoConn : Conn := ⟨migDemoDB, none, true⟩

/-- C1 counterexample: a table whose physical column set already equals
the declared schema is still rebuilt — the trace of a second migration
run contains DDL (CREATE/DROP/ALTER), because
`requiresRebuild = requiresRebuild || true` (src/src/table.ts line 755)
forces the REBUILD state even when the diff found nothing.  This refutes
the NOOP state of the claim. -/
theorem c1_matching_schema_noop_counterexample :
    getExistingColumns migDemoConn.committed "T" =
      ([("A", fieldOf .Int)] : Schema).map Prod.fst ∧
    (MigrateSchema [("A", fieldOf .Int)] "T" [] migDemoConn none).trace.any isDDL = true :=
  ⟨rfl, rfl⟩

/-- C1 amended: on a table whose physical column set equals the declared
one (duplicate-free column names, well-formed rows), a migration run is
NOT a NOOP — it performs the full REBUILD, so its trace contains DDL —
but it succeeds, and the rebuilt table keeps exactly the original rows
and their values, every other table is untouched, and no transaction is
left open.  Running it twice in a row therefore preserves rows and
values exactly, but through two rebuilds rather than two NOOPs. -/
theorem c1_matching_schema_rebuilds (sch : Schema) (name : String) (conn : Conn)
    (rows : List (List Value))
    (hmatch : conn.committed name = some ⟨sch.map Prod.fst, rows⟩)
    (hnd : (sch.map Prod.fst).Nodup)
    (hne : sch ≠ [])
    (hlen : ∀ r ∈ rows, r.length = (sch.map Prod.fst).length) :
    (MigrateSchema sch name [] conn none).err = none ∧
    (MigrateSchema sch name [] conn none).trace.any isDDL = true ∧
    (MigrateSchema sch name [] conn none).conn.committed name =
      some ⟨sch.map Prod.fst, rows⟩ ∧
    (∀ m, m ≠ name → m ≠ "__tmp__" ++ name →
      (MigrateSchema sch name [] conn none).conn.committed m = conn.committed m) ∧
    (MigrateSchema sch name [] conn none).conn.txn = none := by
  obtain ⟨D, t0, fk0⟩ := conn
  simp only [Conn.committed] at hmatch ⊢
  have htemp : name ≠ "__tmp__" ++ name := by
    intro h
    have hL := congrArg String.length h
    rw [String.length_append] at hL
    have h7 : ("__tmp__" : String).length = 7 := rfl
    omega
  have hcols : getExistingColumns D name = sch.map Prod.fst := by
    simp [getExistingColumns, hmatch]
  have hpos : 0 < (sch.map Prod.fst).length := by
    cases sch with
    | nil => exact absurd rfl hne
    | cons a l => simp
  have hsteps : migrationTrySteps sch name [] D =
      [SqlStmt.pragmaFk false, SqlStmt.createTable ("__tmp__" ++ name) (sch.map Prod.fst),
       SqlStmt.insertSelect ("__tmp__" ++ name) (sch.map Prod.fst)
         ((sch.map Prod.fst).map SelectExpr.colRef) name,
       SqlStmt.dropTable name, SqlStmt.renameTable ("__tmp__" ++ name) name,
       SqlStmt.pragmaFk true, SqlStmt.commitTxn] := by
    simp only [migrationTrySteps, hcols, List.map_nil]
    rw [if_pos hpos, migrationSelectExprs_matching]
    simp
  have hex : tableExists D name = true := by simp [tableExists, hmatch]
  have hchain := rebuildChain D fk0 name ("__tmp__" ++ name) (sch.map Prod.fst) rows
    hmatch htemp hnd hlen
  simp only [MigrateSchema, hex, Bool.true_eq_false, if_false, Bool.or_true,
    runTry_none, hsteps]
  refine ⟨trivial, by simp [isDDL], ?_, ?_, ?_⟩
  · exact hchain.1
  · exact fun m hm1 hm2 => hchain.2.1 m hm1 hm2
  · exact hchain.2.2

/-- Witness for C1 at the one-row fixture table. -/
theorem c1_matching_schema_rebuilds_witness :
    migDemoConn.committed "T" =
      some ⟨([("A", fieldOf .Int)] : Schema).map Prod.fst, [[Value.vNum 1]]⟩ ∧
    (([("A", fieldOf .Int)] : Schema).map Prod.fst).Nodup ∧
    ([("A", fieldOf .Int)] : Schema) ≠ [] ∧
    (∀ r ∈ [[Value.vNum 1]], r.length = (([("A", fieldOf .Int)] : Schema).map Prod.fst).length) ∧
    ((MigrateSchema [("A", fieldOf .Int)] "T" [] migDemoConn none).err = none ∧
     (MigrateSchema [("A", fieldOf .Int)] "T" [] migDemoConn none).trace.any isDDL = true ∧
     (MigrateSchema [("A", fieldOf .Int)] "T" [] migDemoConn none).conn.committed "T" =
       some ⟨([("A", fieldOf .Int)] : Schema).map Prod.fst, [[Value.vNum 1]]⟩ ∧
     (∀ m, m ≠ "T" → m ≠ "__tmp__" ++ "T" →
       (MigrateSchema [("A", fieldOf .Int)] "T" [] migDemoConn none).conn.committed m =
         migDemoConn.committed m) ∧
     (MigrateSchema [("A", fieldOf .Int)] "T" [] migDemoConn none).conn.txn = none) :=
  ⟨rfl, by simp, by simp, by simp,
   c1_matching_schema_rebuilds [("A", fieldOf .Int)] "T" migDemoConn [[Value.vNum 1]] rfl
     (by simp) (by simp) (by simp)⟩

/-- C2: whenever the table exists and any statement of the REBUILD try
block throws (modelled by injecting a fault at any index inside the
block), MigrateSchema runs the catch path: the transaction is rolled
back (no transaction is left open), foreign-key enforcement is
re-enabled, the original error is re-raised, and the committed database
— every physical table, its columns and its rows — is exactly what it
was before the migration started.  The key invariant is that the COMMIT
is the final statement of the try block, so a failure at any earlier
point leaves the transaction unpublished. -/
theorem c2_rebuild_failure_atomic (sch : Schema) (name : String)
    (renameColumns : List (String × String)) (conn : Conn) (i : Nat)
    (hex : tableExists conn.committed name = true)
    (hi : i < (migrationTrySteps sch name renameColumns conn.committed).length) :
    (MigrateSchema sch name renameColumns conn (some i)).err = some i ∧
    (MigrateSchema sch name renameColumns conn (some i)).conn.committed = conn.committed ∧
    (MigrateSchema sch name renameColumns conn (some i)).conn.txn = none ∧
    (MigrateSchema sch name renameColumns conn (some i)).conn.fkOn = true := by
  have hfail := runTry_fail (migrationTrySteps sch name renameColumns conn.committed)
    (execStmt conn .beginTxn) 0 i (Nat.zero_le i) (by simpa using hi)
    (fun j hj hji =>
      migrationTrySteps_noCR sch name renameColumns conn.committed j hj (by omega))
    rfl
  simp only [MigrateSchema, hex, Bool.true_eq_false, if_false, Bool.or_true]
  rw [hfail.1]
  exact ⟨rfl, hfail.2, rfl, rfl⟩

/-- Witness for C2: fault injected at the DROP of the fixture rebuild. -/
theorem c2_rebuild_failure_atomic_witness :
    tableExists migDemoConn.committed "T" = true ∧
    3 < (migrationTrySteps [("A", fieldOf .Int)] "T" [] migDemoConn.committed).length ∧
    ((MigrateSchema [("A", fieldOf .Int)] "T" [] migDemoConn (some 3)).err = some 3 ∧
     (MigrateSchema [("A", fieldOf .Int)] "T" [] migDemoConn (some 3)).conn.committed =
       migDemoConn.committed ∧
     (MigrateSchema [("A", fieldOf .Int)] "T" [] migDemoConn (some 3)).conn.txn = none ∧
     (MigrateSchema [("A", fieldOf .Int)] "T" [] migDemoConn (some 3)).conn.fkOn = true) :=
  ⟨rfl, by decide, c2_rebuild_failure_atomic [("A", fieldOf .Int)] "T" [] migDemoConn 3 rfl
    (by decide)⟩

end Optima
